import Mathlib

/-!
Verification development for the deepnote reactivity AST analyzer
(packages/reactivity/src/ast-analyzer.py, the Pyodide/browser entry point, and
packages/reactivity/src/scripts/ast-analyzer.py, the file-transport script).

The Python sources are embedded shallowly:
* Python `set` objects are modelled as duplicate-free lists in insertion
  order (`insertS` is `set.add`); only membership and iteration order are
  ever consumed by the sources, and CPython's set iteration order is
  unspecified, so insertion order is one concrete refinement of it.
* Python's `sorted` on strings compares by Unicode code point; `sortS`
  below implements exactly that ordering via `strLe`.
* The regex operations of the sources (`re.sub`, `re.findall` on the fixed
  patterns appearing in the code) are implemented character-by-character
  with the same match semantics (leftmost, non-overlapping, non-greedy or
  greedy as the pattern dictates); the character classes are the ASCII
  classes the patterns denote.
* `ast.parse` is not implemented; a block carries the outcome of parsing
  its code text as a `Except PyErr StmtList` field, and code fragments are
  written directly as syntax trees in the restricted grammar below, which
  covers every node kind the visitor in the source handles specially plus
  the generic expression shapes (calls, binary operations, attribute
  access, constants) that exercise `generic_visit`.
-/

/-- One element of the `{type, message}` error payload the analyzer builds
from a caught Python exception. -/
structure PyErr where
  type : String
  message : String
deriving DecidableEq, Repr

/-- Python `set.add`: insert a string into a duplicate-free list, keeping
insertion order. -/
def insertS (l : List String) (x : String) : List String :=
  if x ∈ l then l else l ++ [x]

/-- Rebuild a list as a duplicate-free list in first-occurrence order;
models constructing a Python `set` from an iterable. -/
def dedupIns (l : List String) : List String :=
  l.foldl insertS []

/-- Lexicographic comparison of character lists by code point, the order
CPython uses when sorting `str` values. -/
def lexLe : List Char → List Char → Bool
  | [], _ => true
  | _ :: _, [] => false
  | a :: as, b :: bs =>
    if a.toNat < b.toNat then true
    else if b.toNat < a.toNat then false
    else lexLe as bs

/-- Code-point comparison on strings, as used by Python `sorted`. -/
def strLe (a b : String) : Bool :=
  lexLe a.data b.data

/-- Python `sorted` on a list of strings. -/
def sortS (l : List String) : List String :=
  List.insertionSort (fun a b => strLe a b = true) l

/-! Character classes of the regex patterns appearing in the sources,
read as the ASCII classes they denote. -/

/-- The class matched by `\s` (ASCII whitespace). -/
def isSpaceC (c : Char) : Bool :=
  c == ' ' || c == '\t' || c == '\n' || c == '\r' || c == '\x0b' || c == '\x0c'

/-- The class `[0-9]`. -/
def isDigitC (c : Char) : Bool :=
  decide (48 ≤ c.toNat ∧ c.toNat ≤ 57)

/-- The class `[a-zA-Z]`. -/
def isAlphaC (c : Char) : Bool :=
  decide ((65 ≤ c.toNat ∧ c.toNat ≤ 90) ∨ (97 ≤ c.toNat ∧ c.toNat ≤ 122))

/-- ASCII punctuation other than the underscore (printable, not
alphanumeric, not whitespace). -/
def isPunctC (c : Char) : Bool :=
  decide (33 ≤ c.toNat ∧ c.toNat ≤ 126) && !(isAlphaC c) && !(isDigitC c) &&
    !(c == '_')

/-- The class `[0-9a-zA-Z_]`, also the class matched by `\w`. -/
def isWordC (c : Char) : Bool :=
  isAlphaC c || isDigitC c || c == '_'

/-- The class `[a-zA-Z_]`. -/
def isIdentStartC (c : Char) : Bool :=
  isAlphaC c || c == '_'

/-- Lowercase one character, as Python `str.lower` does on ASCII. -/
def lowerC (c : Char) : Char :=
  if 'A' ≤ c && c ≤ 'Z' then Char.ofNat (c.toNat + 32) else c

/-- Python `str.lower` on ASCII strings. -/
def lowerStr (s : String) : String :=
  ⟨s.data.map lowerC⟩

/-- Python `str.startswith`, on character lists (pattern first). -/
def leadsWith : List Char → List Char → Bool
  | [], _ => true
  | _ :: _, [] => false
  | p :: ps, c :: cs => p == c && leadsWith ps cs

/-- Step function of `re.sub(r"\s+", "_", name)`: each maximal run of
whitespace becomes one underscore.  The fuel argument (instantiated with
the list length) only serves termination; each step consumes at least one
character. -/
def collapseWsGo : Nat → List Char → List Char
  | 0, _ => []
  | _ + 1, [] => []
  | n + 1, c :: rest =>
    if isSpaceC c then '_' :: collapseWsGo n (rest.dropWhile isSpaceC)
    else c :: collapseWsGo n rest

/-- Embedding of `sanitize_python_variable_name` from both analyzer
sources: collapse whitespace runs to `_`, delete characters outside
`[0-9a-zA-Z_]`, strip a leading run of characters outside `[a-zA-Z_]`, and
substitute `input_1` for an empty result. -/
def sanitize_python_variable_name (nm : String) : String :=
  let s1 := collapseWsGo nm.data.length nm.data
  let s2 := s1.filter isWordC
  let s3 := s2.dropWhile (fun c => !(isIdentStartC c))
  if s3.isEmpty then "input_1" else ⟨s3⟩

/-! The regex scanners of `extract_jinja_variables` (browser source,
lines 211-249). -/

/-- Captures of `re.findall(r"\{\{\s*(\w+)", sql_code)`: at each position
where `\x7b\x7b` occurs, skip whitespace and capture a maximal nonempty
`\w+` run; matches are leftmost and non-overlapping. -/
def findMustacheGo : Nat → List Char → List String
  | 0, _ => []
  | _ + 1, [] => []
  | n + 1, c :: rest =>
    match c, rest with
    | '{', '{' :: rest2 =>
      let afterWs := rest2.dropWhile isSpaceC
      let word := afterWs.takeWhile isWordC
      if word.isEmpty then findMustacheGo n rest
      else String.mk word :: findMustacheGo n (afterWs.drop word.length)
    | _, _ => findMustacheGo n rest

/-- Distance to the nearest `\x7d\x7d` with no newline before it; the
shortest completion of the non-greedy `.*?\x7d\x7d` (without `DOTALL`,
`.` does not match a newline). -/
def findCloseExprGo : Nat → List Char → Option Nat
  | 0, _ => none
  | _ + 1, [] => none
  | n + 1, c :: rest =>
    match c, rest with
    | '}', '}' :: _ => some 0
    | _, _ => if c == '\n' then none else (findCloseExprGo n rest).map (· + 1)

/-- Embedding of `re.sub(r"\{\{.*?\}\}", "", s)`. -/
def subMustacheGo : Nat → List Char → List Char
  | 0, _ => []
  | _ + 1, [] => []
  | n + 1, c :: rest =>
    match c, rest with
    | '{', '{' :: rest2 =>
      match findCloseExprGo rest2.length rest2 with
      | some j => subMustacheGo n (rest2.drop (j + 2))
      | none => '{' :: subMustacheGo n ('{' :: rest2)
    | _, _ => c :: subMustacheGo n rest

/-- Distance to the nearest `%\x7d`; with `re.DOTALL` the region may span
newlines. -/
def findCloseStmtGo : Nat → List Char → Option Nat
  | 0, _ => none
  | _ + 1, [] => none
  | n + 1, c :: rest =>
    match c, rest with
    | '%', '}' :: _ => some 0
    | _, _ => (findCloseStmtGo n rest).map (· + 1)

/-- Embedding of `re.sub(r"\{%.*?%\}", "", s, flags=re.DOTALL)`. -/
def subStmtGo : Nat → List Char → List Char
  | 0, _ => []
  | _ + 1, [] => []
  | n + 1, c :: rest =>
    match c, rest with
    | '{', '%' :: rest2 =>
      match findCloseStmtGo rest2.length rest2 with
      | some j => subStmtGo n (rest2.drop (j + 2))
      | none => '{' :: subStmtGo n ('%' :: rest2)
    | _, _ => c :: subStmtGo n rest

/-- Case-insensitively strip a lowercase-spelled keyword from the head of
the input, returning the remainder on success. -/
def dropKwCI : List Char → List Char → Option (List Char)
  | [], cs => some cs
  | _ :: _, [] => none
  | k :: ks, c :: cs => if lowerC c == k then dropKwCI ks cs else none

/-- Try to match `KW\s+([a-zA-Z_][a-zA-Z0-9_]*)` case-insensitively at the
head of the input (the word boundary before `KW` is the caller's charge),
returning the capture and the matched length. -/
def kwHere (kw : List Char) (cs : List Char) : Option (String × Nat) :=
  match dropKwCI kw cs with
  | none => none
  | some rest =>
    let ws := rest.takeWhile isSpaceC
    if ws.isEmpty then none
    else
      let rest2 := rest.dropWhile isSpaceC
      match rest2 with
      | [] => none
      | d :: _ =>
        if isIdentStartC d then
          let ident := rest2.takeWhile isWordC
          some (String.mk ident, kw.length + ws.length + ident.length)
        else none

/-- Captures of `re.findall(r"\bKW\s+([a-zA-Z_][a-zA-Z0-9_]*)", s,
re.IGNORECASE)`: leftmost non-overlapping matches; the boolean tracks
whether the current position sits at a `\b` boundary for a word-character
start (previous character absent or not a word character). -/
def findTableGo (kw : List Char) : Nat → Bool → List Char → List String
  | 0, _, _ => []
  | _ + 1, _, [] => []
  | n + 1, atB, c :: rest =>
    if atB then
      match kwHere kw (c :: rest) with
      | some (cap, len) => cap :: findTableGo kw n false ((c :: rest).drop len)
      | none => findTableGo kw n (!(isWordC c)) rest
    else findTableGo kw n (!(isWordC c)) rest

/-- The four keyword patterns of `table_patterns`, spelled lowercase for
the case-insensitive scan. -/
def table_kws : List String := ["from", "join", "into", "update"]

/-- The stoplist `sql_keywords` of the source. -/
def sql_keywords : List String :=
  ["select", "where", "group", "order", "having", "limit", "offset",
   "union", "intersect", "except"]

/-- The names captured by the `\x7b\x7b\s*(\w+)` scan over the query
text. -/
def mustacheVars (sql_code : String) : List String :=
  findMustacheGo sql_code.data.length sql_code.data

/-- The query text with `\x7b\x7b ... \x7d\x7d` expression regions and
(possibly multi-line) `\x7b% ... %\x7d` statement regions removed, i.e.
the `clean_sql` value of the source. -/
def cleanedSql (sql_code : String) : List Char :=
  let clean1 := subMustacheGo sql_code.data.length sql_code.data
  subStmtGo clean1.length clean1

/-- The identifiers captured after one keyword in the cleaned query
text. -/
def tableMatches (kw : String) (sql_code : String) : List String :=
  findTableGo kw.data (cleanedSql sql_code).length true (cleanedSql sql_code)

/-- Embedding of `extract_jinja_variables` (browser source): the set of
`\x7b\x7b`-expression names, united with the identifiers following
`FROM`/`JOIN`/`INTO`/`UPDATE` in the text with template regions removed,
minus the stoplist. -/
def extract_jinja_variables (sql_code : String) : List String :=
  table_kws.foldl
    (fun acc kw =>
      (tableMatches kw sql_code).foldl
        (fun a m => if lowerStr m ∈ sql_keywords then a else insertS a m) acc)
    (dedupIns (mustacheVars sql_code))

/-! The Python syntax-tree fragment the visitor walks.  Expression and
statement lists are spelled as their own inductive types so that the
visitor below is compiled by structural recursion (and hence evaluates
inside the kernel).  The grammar covers every node kind the source's
`VariableVisitor` overrides, plus calls, binary operations, returns and
constants, which the source handles through `generic_visit`. -/

/-- The expression context of an `ast.Name` node. -/
inductive Ctx where
  | load
  | store
deriving DecidableEq, Repr

/-- One `ast.alias` of an import statement. -/
structure ImpAlias where
  nm : String
  asname : Option String := none
deriving DecidableEq, Repr

mutual
inductive PExpr where
  | name (id : String) (ctx : Ctx)
  | attr (value : PExpr) (attrName : String)
  | call (func : PExpr) (args : PExprList)
  | binOp (left : PExpr) (right : PExpr)
  | namedExpr (target : String) (value : PExpr)
  | constant
deriving Repr

inductive PExprList where
  | nil
  | cons (e : PExpr) (es : PExprList)
deriving Repr

inductive POptExpr where
  | noneE
  | someE (e : PExpr)
deriving Repr

inductive PStmt where
  | exprStmt (value : PExpr)
  | assign (targets : PExprList) (value : PExpr)
  | augAssign (target : PExpr) (value : PExpr)
  | annAssign (target : PExpr) (ann : PExpr) (value : POptExpr)
  | functionDef (nm : String) (body : PStmtList)
  | asyncFunctionDef (nm : String) (body : PStmtList)
  | classDef (nm : String) (body : PStmtList)
  | globalDecl (names : List String)
  | importStmt (aliases : List ImpAlias)
  | importFrom (aliases : List ImpAlias)
  | ret (value : POptExpr)
  | pass
deriving Repr

inductive PStmtList where
  | nil
  | cons (t : PStmt) (ts : PStmtList)
deriving Repr
end

/-- The builtin-name set of `VariableVisitor.visit_Name`, in source
order. -/
def pyBuiltins : List String :=
  ["print", "len", "range", "str", "int", "float", "bool", "list", "dict",
   "set", "tuple", "abs", "all", "any", "bin", "callable", "chr", "dir",
   "enumerate", "eval", "exec", "filter", "format", "getattr", "globals",
   "hasattr", "hash", "help", "hex", "id", "input", "isinstance",
   "issubclass", "iter", "locals", "map", "max", "min", "next", "oct",
   "open", "ord", "pow", "repr", "reversed", "round", "setattr", "sorted",
   "sum", "type", "vars", "zip", "__import__", "True", "False", "None"]

/-- The mutable state of one `VariableVisitor` run.  The scope stack grows
at the head (the source appends and pops at the tail; only emptiness is
ever consulted). -/
structure VState where
  global_vars : List String
  used_global_vars : List String
  imported_modules : List String
  scope_stack : List String
  function_globals : List String
deriving DecidableEq, Repr

def initVState : VState := ⟨[], [], [], [], []⟩

/-- Embedding of `visit_Name` (source lines 86-162). -/
def visit_Name (s : VState) (id : String) (ctx : Ctx) : VState :=
  match ctx with
  | .load =>
    if id ∈ pyBuiltins then s
    else if s.scope_stack = [] then
      { s with used_global_vars := insertS s.used_global_vars id }
    else if id ∈ s.function_globals then
      { s with used_global_vars := insertS s.used_global_vars id }
    else if id ∈ s.global_vars then
      { s with used_global_vars := insertS s.used_global_vars id }
    else s
  | .store =>
    if s.scope_stack = [] then
      { s with global_vars := insertS s.global_vars id }
    else s

/-- The base-name recording of `visit_Attribute` when the attribute value
is a plain name (source lines 164-173); note there is no builtin check on
this path. -/
def attrBase (s : VState) (id : String) : VState :=
  if s.scope_stack = [] then
    { s with used_global_vars := insertS s.used_global_vars id }
  else if id ∈ s.function_globals then
    { s with used_global_vars := insertS s.used_global_vars id }
  else if id ∈ s.global_vars then
    { s with used_global_vars := insertS s.used_global_vars id }
  else s

/-- The target loop of `visit_Assign`: a plain-name target binds at module
scope when the scope stack is empty. -/
def storeNameAt (s : VState) (t : PExpr) : VState :=
  match t with
  | .name id _ =>
    if s.scope_stack = [] then
      { s with global_vars := insertS s.global_vars id }
    else s
  | _ => s

def addNameTargets (s : VState) : PExprList → VState
  | .nil => s
  | .cons t ts => addNameTargets (storeNameAt s t) ts

/-- Record `alias.asname or alias.name` for each alias, as `visit_Import`
and `visit_ImportFrom` do. -/
def addAliases (s : VState) (aliases : List ImpAlias) : VState :=
  { s with
    imported_modules :=
      aliases.foldl (fun a al => insertS a (al.asname.getD al.nm))
        s.imported_modules }

mutual
/-- Embedding of the `VariableVisitor` dispatch on expression nodes,
with `generic_visit` visiting children in field order. -/
def visitExpr (s : VState) : PExpr → VState
  | .name id ctx => visit_Name s id ctx
  | .attr value _ =>
    match value with
    | .name id _ => attrBase s id
    | v => visitExpr s v
  | .call f args => visitExprList (visitExpr s f) args
  | .binOp l r => visitExpr (visitExpr s l) r
  | .namedExpr tgt value =>
    let s1 :=
      if s.scope_stack = [] then
        { s with global_vars := insertS s.global_vars tgt }
      else s
    let s2 := visit_Name s1 tgt .store
    visitExpr s2 value
  | .constant => s

def visitOptExpr (s : VState) : POptExpr → VState
  | .noneE => s
  | .someE e => visitExpr s e

def visitExprList (s : VState) : PExprList → VState
  | .nil => s
  | .cons e es => visitExprList (visitExpr s e) es

/-- Embedding of the `VariableVisitor` dispatch on statement nodes. -/
def visitStmt (s : VState) : PStmt → VState
  | .exprStmt e => visitExpr s e
  | .assign targets value =>
    visitExpr (visitExprList (addNameTargets s targets) targets) value
  | .augAssign target value =>
    visitExpr (visitExpr (storeNameAt s target) target) value
  | .annAssign target ann value =>
    visitOptExpr (visitExpr (visitExpr (storeNameAt s target) target) ann) value
  | .functionDef nm body =>
    let s1 :=
      if s.scope_stack = [] then
        { s with global_vars := insertS s.global_vars nm }
      else s
    let saved := s1.function_globals
    let s2 := { s1 with function_globals := [], scope_stack := nm :: s1.scope_stack }
    let s3 := visitStmtList s2 body
    { s3 with scope_stack := s3.scope_stack.tail, function_globals := saved }
  | .asyncFunctionDef nm body =>
    let s1 :=
      if s.scope_stack = [] then
        { s with global_vars := insertS s.global_vars nm }
      else s
    let saved := s1.function_globals
    let s2 := { s1 with function_globals := [], scope_stack := nm :: s1.scope_stack }
    let s3 := visitStmtList s2 body
    { s3 with scope_stack := s3.scope_stack.tail, function_globals := saved }
  | .classDef nm body =>
    let s1 :=
      if s.scope_stack = [] then
        { s with global_vars := insertS s.global_vars nm }
      else s
    let s2 := visitStmtList { s1 with scope_stack := nm :: s1.scope_stack } body
    { s2 with scope_stack := s2.scope_stack.tail }
  | .globalDecl names =>
    { s with function_globals := names.foldl insertS s.function_globals }
  | .importStmt aliases => addAliases s aliases
  | .importFrom aliases => addAliases s aliases
  | .ret v => visitOptExpr s v
  | .pass => s

def visitStmtList (s : VState) : PStmtList → VState
  | .nil => s
  | .cons t ts => visitStmtList (visitStmt s t) ts
end

/-- Walk the statements of a parsed module in order, as
`visitor.visit(tree)` does via `generic_visit` on the `Module` node. -/
def visitTop (s : VState) : List PStmt → VState
  | [] => s
  | t :: ts => visitTop (visitStmt s t) ts

/-- Spell a plain statement list in the visitor's list type (used to write
nested function and class bodies). -/
def SL : List PStmt → PStmtList
  | [] => .nil
  | t :: ts => .cons t (SL ts)

/-- Embedding of `get_defined_used_variables` (browser source lines
186-194): run a fresh visitor over the parsed fragment and return
`(global_vars, used_global_vars, imported_modules)`. -/
def get_defined_used_variables (tree : List PStmt) :
    List String × List String × List String :=
  let v := visitTop initVState tree
  (v.global_vars, v.used_global_vars, v.imported_modules)

/-! The block model shared by the two batch entry points. -/

/-- Per-input configuration of a `notebook-function` block (scripts
source). -/
structure InputCfg where
  custom_value : Option String := none
  variable_name : Option String := none
deriving DecidableEq, Repr

/-- Per-export configuration of a `notebook-function` block (scripts
source). -/
structure ExportCfg where
  enabled : Option Bool := none
  variable_name : Option String := none
deriving DecidableEq, Repr

/-- The metadata mapping of a block.  A `none` field models an absent key
(and an absent or `None` metadata mapping is the all-`none` record); the
association lists keep the insertion order a Python `dict` iterates in. -/
structure Metadata where
  deepnote_variable_name : Option String := none
  deepnote_big_number_value : Option String := none
  deepnote_big_number_comparison_value : Option String := none
  function_notebook_inputs : List (String × InputCfg) := []
  function_notebook_export_mappings : List (String × ExportCfg) := []
deriving Repr

/-- One input block.  `blockId` models the `blockId` key of the browser
transport and the `id` key of the scripts transport (`none` = key absent).
`code_py` carries the outcome of `ast.parse` on the block's
(magic-escaped) code text — parsing itself is outside the model — and
`code_text` is the raw text the `sql` branch scans. -/
structure Block where
  blockId : Option String := none
  type : Option String := none
  code_py : Except PyErr (List PStmt) := .ok []
  code_text : String := ""
  metadata : Metadata := {}
deriving Repr

/-- One output record.  `error := none` models the absence of the `error`
key. -/
structure AnalysisResult where
  blockId : String
  definedVariables : List String
  usedVariables : List String
  importedModules : List String
  error : Option PyErr := none
deriving DecidableEq, Repr

/-- The `block.get("type") or "code"` computation of `analyze_block`:
an absent or empty (falsy) type tag is treated as `code`. -/
def blockTypeOf (b : Block) : String :=
  match b.type with
  | none => "code"
  | some t => if t = "" then "code" else t

/-- The truthiness test Python applies to `metadata.get(key)` for an
optional string value. -/
def truthyList : Option String → List String
  | some s => if s = "" then [] else [s]
  | none => []

/-- The body of the `try` in `analyze_block` (browser source lines
263-342): dispatch on the block type; a thrown exception is the `.error`
case (a missing `blockId` key raises `KeyError`, and a code block whose
text does not parse raises the parse error carried by `code_py`). -/
def analyze_block_body (b : Block) : Except PyErr AnalysisResult :=
  let block_type := blockTypeOf b
  match b.blockId with
  | none => .error { type := "KeyError", message := "\x27blockId\x27" }
  | some block_id =>
    if block_type = "code" then
      match b.code_py with
      | .error e => .error e
      | .ok tree =>
        let r := get_defined_used_variables tree
        .ok { blockId := block_id, definedVariables := sortS r.1,
              usedVariables := sortS r.2.1, importedModules := r.2.2 }
    else if block_type = "sql" then
      let jinja_variables := extract_jinja_variables b.code_text
      .ok { blockId := block_id,
            definedVariables := truthyList b.metadata.deepnote_variable_name,
            usedVariables := sortS jinja_variables, importedModules := [] }
    else if block_type = "button" then
      .ok { blockId := block_id,
            definedVariables := truthyList b.metadata.deepnote_variable_name,
            usedVariables := [], importedModules := [] }
    else if block_type = "big-number" then
      let used_variables :=
        truthyList b.metadata.deepnote_big_number_value ++
          truthyList b.metadata.deepnote_big_number_comparison_value
      .ok { blockId := block_id, definedVariables := [],
            usedVariables := sortS (dedupIns used_variables),
            importedModules := [] }
    else if leadsWith "input-".data block_type.data then
      let output_variables :=
        match b.metadata.deepnote_variable_name with
        | some vn => if vn = "" then [] else [sanitize_python_variable_name vn]
        | none => []
      .ok { blockId := block_id, definedVariables := output_variables,
            usedVariables := [], importedModules := [] }
    else
      .ok { blockId := block_id, definedVariables := [],
            usedVariables := [], importedModules := [] }

/-- Embedding of `analyze_block` (browser source): the `try`/`except` that
converts any exception into a result with empty lists and a populated
`error` field, with `block.get("blockId", "unknown")` as the identifier. -/
def analyze_block (b : Block) : AnalysisResult :=
  match analyze_block_body b with
  | .ok r => r
  | .error e =>
    { blockId := b.blockId.getD "unknown", definedVariables := [],
      usedVariables := [], importedModules := [], error := some e }

/-- Embedding of `analyze_blocks` (browser source line 366): one result
per block, in input order. -/
def analyze_blocks (bs : List Block) : List AnalysisResult :=
  bs.map analyze_block

namespace Scripts

/-- The explicit input-type list of the scripts dispatcher (line 319). -/
def input_types : List String :=
  ["input-text", "input-textarea", "input-file", "input-select",
   "input-date", "input-date-range", "input-slider", "input-checkbox",
   "input-number", "input-dropdown"]

/-- The loop body of the scripts `analyze_blocks` (lines 224-334) for one
block, up to its `except` clause: `.ok (some r)` appends a result,
`.ok none` falls through every branch and appends nothing (no `else`
branch exists in this source), `.error e` is a raised exception.

The `sql` branch of this source computes template free variables with the
jinja2 engine (`meta.find_undeclared_variables` with the three no-op
filters registered), which is an external library.  Modelled from the
spec: the spec (section 4.2) fixes the regex extraction as the canonical
baseline and requires an engine-based step to agree with it on the
documented cases, so the branch reuses `extract_jinja_variables`. -/
def tryOne (b : Block) : Except PyErr (Option AnalysisResult) :=
  if b.type = some "code" ∨ b.type = none then
    match b.code_py with
    | .error e => .error e
    | .ok tree =>
      let r := get_defined_used_variables tree
      match b.blockId with
      | none => .error { type := "KeyError", message := "\x27id\x27" }
      | some i =>
        .ok (some { blockId := i, definedVariables := sortS r.1,
                    usedVariables := sortS r.2.1, importedModules := r.2.2 })
  else if b.type = some "sql" then
    let jinja_variables := extract_jinja_variables b.code_text
    let output_variables :=
      match b.metadata.deepnote_variable_name with
      | some vn => [vn]
      | none => []
    match b.blockId with
    | none => .error { type := "KeyError", message := "\x27id\x27" }
    | some i =>
      .ok (some { blockId := i, definedVariables := output_variables,
                  usedVariables := sortS jinja_variables,
                  importedModules := [] })
  else if b.type = some "button" then
    let output_variables :=
      match b.metadata.deepnote_variable_name with
      | some vn => [vn]
      | none => []
    match b.blockId with
    | none => .error { type := "KeyError", message := "\x27id\x27" }
    | some i =>
      .ok (some { blockId := i, definedVariables := output_variables,
                  usedVariables := [], importedModules := [] })
  else if b.type = some "big-number" then
    let used_variables :=
      (match b.metadata.deepnote_big_number_value with
       | some v => [v]
       | none => []) ++
        (match b.metadata.deepnote_big_number_comparison_value with
         | some v => [v]
         | none => [])
    match b.blockId with
    | none => .error { type := "KeyError", message := "\x27id\x27" }
    | some i =>
      .ok (some { blockId := i, definedVariables := [],
                  usedVariables := sortS (dedupIns used_variables),
                  importedModules := [] })
  else if b.type = some "notebook-function" then
    let input_variables :=
      b.metadata.function_notebook_inputs.foldl
        (fun acc kv =>
          match kv.2.custom_value, kv.2.variable_name with
          | none, some vn =>
            if vn = "" then acc
            else acc ++ [sanitize_python_variable_name vn]
          | _, _ => acc) []
    let output_variables :=
      b.metadata.function_notebook_export_mappings.foldl
        (fun acc kv =>
          match kv.2.enabled, kv.2.variable_name with
          | some true, some vn =>
            if vn = "" then acc
            else acc ++ [sanitize_python_variable_name vn]
          | _, _ => acc) []
    match b.blockId with
    | none => .error { type := "KeyError", message := "\x27id\x27" }
    | some i =>
      .ok (some { blockId := i, definedVariables := sortS output_variables,
                  usedVariables := sortS input_variables,
                  importedModules := [] })
  else if (match b.type with
           | some t => decide (t ∈ input_types)
           | none => false) then
    let output_variables :=
      match b.metadata.deepnote_variable_name with
      | some vn => [sanitize_python_variable_name vn]
      | none => []
    match b.blockId with
    | none => .error { type := "KeyError", message := "\x27id\x27" }
    | some i =>
      .ok (some { blockId := i, definedVariables := output_variables,
                  usedVariables := [], importedModules := [] })
  else
    .ok none

/-- One turn of the scripts `analyze_blocks` loop: the `except` clause
appends an error result built with `block["id"]`, so a failing block
without an `id` key re-raises out of the whole loop (the `.error` case). -/
def stepBlock (acc : List AnalysisResult) (b : Block) :
    Except PyErr (List AnalysisResult) :=
  match tryOne b with
  | .ok (some r) => .ok (acc ++ [r])
  | .ok none => .ok acc
  | .error e =>
    match b.blockId with
    | some i =>
      .ok (acc ++ [{ blockId := i, definedVariables := [],
                     usedVariables := [], importedModules := [],
                     error := some e }])
    | none => .error { type := "KeyError", message := "\x27id\x27" }

/-- Embedding of the scripts `analyze_blocks` loop over the block list. -/
def analyze_blocks (bs : List Block) : Except PyErr (List AnalysisResult) :=
  bs.foldlM stepBlock []

end Scripts

/-! Invariants of one visitor run: the walk leaves the scope stack where
it found it, and the three output sets only grow. -/

/-- The state after a visit extends the state before it: same scope
stack, and each output set contains everything it contained before. -/
def Pres (s t : VState) : Prop :=
  t.scope_stack = s.scope_stack ∧
    (∀ x, x ∈ s.global_vars → x ∈ t.global_vars) ∧
    (∀ x, x ∈ s.used_global_vars → x ∈ t.used_global_vars) ∧
    (∀ x, x ∈ s.imported_modules → x ∈ t.imported_modules)

/-! Duplicate-freedom of the visitor's output sets. -/

def NodupInv (s : VState) : Prop :=
  s.global_vars.Nodup ∧ s.used_global_vars.Nodup ∧
    s.imported_modules.Nodup ∧ s.function_globals.Nodup

/-! Builtin names and the used set.  The only unguarded path into
`used_global_vars` is the attribute-base path; on fragments free of
attribute access, builtin names never enter the used set. -/

mutual
/-- No attribute-access expression occurs in the expression. -/
def exprNoAttr : PExpr → Bool
  | .name _ _ => true
  | .attr _ _ => false
  | .call f args => exprNoAttr f && exprListNoAttr args
  | .binOp l r => exprNoAttr l && exprNoAttr r
  | .namedExpr _ v => exprNoAttr v
  | .constant => true

def optExprNoAttr : POptExpr → Bool
  | .noneE => true
  | .someE e => exprNoAttr e

def exprListNoAttr : PExprList → Bool
  | .nil => true
  | .cons e es => exprNoAttr e && exprListNoAttr es

/-- No attribute-access expression occurs in the statement. -/
def stmtNoAttr : PStmt → Bool
  | .exprStmt e => exprNoAttr e
  | .assign ts v => exprListNoAttr ts && exprNoAttr v
  | .augAssign t v => exprNoAttr t && exprNoAttr v
  | .annAssign t a v => exprNoAttr t && exprNoAttr a && optExprNoAttr v
  | .functionDef _ body => stmtListNoAttr body
  | .asyncFunctionDef _ body => stmtListNoAttr body
  | .classDef _ body => stmtListNoAttr body
  | .globalDecl _ => true
  | .importStmt _ => true
  | .importFrom _ => true
  | .ret v => optExprNoAttr v
  | .pass => true

def stmtListNoAttr : PStmtList → Bool
  | .nil => true
  | .cons t ts => stmtNoAttr t && stmtListNoAttr ts
end

theorem lexLe_total (a b : List Char) : lexLe a b = true ∨ lexLe b a = true := by
  induction a generalizing b with
  | nil => exact Or.inl rfl
  | cons x xs ih =>
    cases b with
    | nil => exact Or.inr rfl
    | cons y ys =>
      rcases Nat.lt_trichotomy x.toNat y.toNat with h | h | h
      · left; simp [lexLe, h]
      · rcases ih ys with h2 | h2 <;> simp [lexLe, h, h2]
      · right; simp [lexLe, h, Nat.lt_asymm h]

theorem lexLe_trans (a b c : List Char) (h1 : lexLe a b = true)
    (h2 : lexLe b c = true) : lexLe a c = true := by
  induction a generalizing b c with
  | nil => rfl
  | cons x xs ih =>
    cases b with
    | nil => simp [lexLe] at h1
    | cons y ys =>
      cases c with
      | nil => simp [lexLe] at h2
      | cons z zs =>
        simp only [lexLe] at h1 h2 ⊢
        by_cases hxy : x.toNat < y.toNat
        · by_cases hyz : y.toNat < z.toNat
          · have hxz : x.toNat < z.toNat := Nat.lt_trans hxy hyz
            simp [hxz]
          · by_cases hzy : z.toNat < y.toNat
            · simp [hyz, hzy] at h2
            · have hxz : x.toNat < z.toNat := by omega
              simp [hxz]
        · by_cases hyx : y.toNat < x.toNat
          · simp [hxy, hyx] at h1
          · simp only [hxy, hyx, if_false, if_neg] at h1
            by_cases hyz : y.toNat < z.toNat
            · have hxz : x.toNat < z.toNat := by omega
              simp [hxz]
            · by_cases hzy : z.toNat < y.toNat
              · simp [hyz, hzy] at h2
              · simp only [hyz, hzy, if_false, if_neg] at h2
                have hxz : ¬ x.toNat < z.toNat := by omega
                have hzx : ¬ z.toNat < x.toNat := by omega
                simp only [hxz, hzx, if_false, if_neg]
                exact ih ys zs h1 h2

instance : IsTotal String (fun a b => strLe a b = true) :=
  ⟨fun a b => lexLe_total a.data b.data⟩

instance : IsTrans String (fun a b => strLe a b = true) :=
  ⟨fun a b c => lexLe_trans a.data b.data c.data⟩

theorem sortS_sorted (l : List String) :
    List.Sorted (fun a b => strLe a b = true) (sortS l) :=
  List.sorted_insertionSort _ l

theorem sortS_perm (l : List String) : List.Perm (sortS l) l :=
  List.perm_insertionSort _ l

theorem sortS_nodup (l : List String) (h : l.Nodup) : (sortS l).Nodup :=
  (sortS_perm l).nodup_iff.mpr h

theorem mem_insertS (l : List String) (x y : String) :
    y ∈ insertS l x ↔ y ∈ l ∨ y = x := by
  unfold insertS
  split
  · rename_i hx
    constructor
    · exact Or.inl
    · rintro (h | rfl)
      · exact h
      · exact hx
  · simp

theorem insertS_nodup (l : List String) (x : String) (h : l.Nodup) :
    (insertS l x).Nodup := by
  unfold insertS
  split
  · exact h
  · rename_i hx
    simpa [List.nodup_append] using ⟨h, hx⟩

theorem self_mem_insertS (l : List String) (x : String) : x ∈ insertS l x := by
  simp [mem_insertS]

theorem mem_of_mem_insertS_ne (l : List String) (x y : String)
    (h : y ∈ insertS l x) (hne : y ≠ x) : y ∈ l := by
  rcases (mem_insertS l x y).mp h with h | h
  · exact h
  · exact absurd h hne

theorem mem_dedupIns (l : List String) (x : String) :
    x ∈ dedupIns l ↔ x ∈ l := by
  have key : ∀ (l acc : List String), x ∈ l.foldl insertS acc ↔ x ∈ acc ∨ x ∈ l := by
    intro l
    induction l with
    | nil => simp
    | cons a as ih =>
      intro acc
      simp only [List.foldl_cons, ih, mem_insertS, List.mem_cons]
      tauto
  simpa [dedupIns] using key l []

theorem dedupIns_nodup (l : List String) : (dedupIns l).Nodup := by
  have key : ∀ (l acc : List String), acc.Nodup → (l.foldl insertS acc).Nodup := by
    intro l
    induction l with
    | nil => exact fun _ h => h
    | cons a as ih => exact fun acc h => ih _ (insertS_nodup _ _ h)
  exact key l [] List.nodup_nil

theorem pres_refl (s : VState) : Pres s s :=
  ⟨rfl, fun _ h => h, fun _ h => h, fun _ h => h⟩

theorem pres_trans {s t u : VState} (h1 : Pres s t) (h2 : Pres t u) : Pres s u :=
  ⟨h2.1.trans h1.1, fun x hx => h2.2.1 x (h1.2.1 x hx),
   fun x hx => h2.2.2.1 x (h1.2.2.1 x hx), fun x hx => h2.2.2.2 x (h1.2.2.2 x hx)⟩

theorem pres_insert_global (s : VState) (id : String) :
    Pres s { s with global_vars := insertS s.global_vars id } :=
  ⟨rfl, fun _ hx => (mem_insertS _ _ _).mpr (Or.inl hx), fun _ h => h, fun _ h => h⟩

theorem pres_insert_used (s : VState) (id : String) :
    Pres s { s with used_global_vars := insertS s.used_global_vars id } :=
  ⟨rfl, fun _ h => h, fun _ hx => (mem_insertS _ _ _).mpr (Or.inl hx), fun _ h => h⟩

theorem pres_visit_Name (s : VState) (id : String) (ctx : Ctx) :
    Pres s (visit_Name s id ctx) := by
  cases ctx <;> simp only [visit_Name]
  · split
    · exact pres_refl s
    · split
      · exact pres_insert_used s id
      · split
        · exact pres_insert_used s id
        · split
          · exact pres_insert_used s id
          · exact pres_refl s
  · split
    · exact pres_insert_global s id
    · exact pres_refl s

theorem pres_attrBase (s : VState) (id : String) : Pres s (attrBase s id) := by
  simp only [attrBase]
  split
  · exact pres_insert_used s id
  · split
    · exact pres_insert_used s id
    · split
      · exact pres_insert_used s id
      · exact pres_refl s

theorem pres_storeNameAt (s : VState) (t : PExpr) : Pres s (storeNameAt s t) := by
  cases t <;> simp only [storeNameAt] <;> try exact pres_refl s
  split
  · exact pres_insert_global s _
  · exact pres_refl s

theorem pres_addNameTargets (s : VState) (ts : PExprList) :
    Pres s (addNameTargets s ts) := by
  cases ts with
  | nil => exact pres_refl s
  | cons t ts =>
    exact pres_trans (pres_storeNameAt s t) (pres_addNameTargets _ ts)

theorem mem_foldl_insertS_of_mem {α : Type} (f : α → String) (l : List α)
    (acc : List String) (x : String) (h : x ∈ acc) :
    x ∈ l.foldl (fun a y => insertS a (f y)) acc := by
  induction l generalizing acc with
  | nil => exact h
  | cons a as ih =>
    exact ih _ ((mem_insertS _ _ _).mpr (Or.inl h))

theorem pres_addAliases (s : VState) (aliases : List ImpAlias) :
    Pres s (addAliases s aliases) :=
  ⟨rfl, fun _ h => h, fun _ h => h,
   fun x hx => mem_foldl_insertS_of_mem _ aliases _ x hx⟩

theorem pres_globalDecl (s : VState) (names : List String) :
    Pres s { s with function_globals := names.foldl insertS s.function_globals } :=
  ⟨rfl, fun _ h => h, fun _ h => h, fun _ h => h⟩

mutual
theorem pres_visitExpr (s : VState) (e : PExpr) : Pres s (visitExpr s e) := by
  cases e with
  | name id ctx => exact pres_visit_Name s id ctx
  | attr value attrName =>
    cases value with
    | name id ctx => exact pres_attrBase s id
    | attr v a => exact pres_visitExpr s (.attr v a)
    | call f args => exact pres_visitExpr s (.call f args)
    | binOp l r => exact pres_visitExpr s (.binOp l r)
    | namedExpr t v => exact pres_visitExpr s (.namedExpr t v)
    | constant => exact pres_visitExpr s .constant
  | call f args =>
    exact pres_trans (pres_visitExpr s f) (pres_visitExprList _ args)
  | binOp l r =>
    exact pres_trans (pres_visitExpr s l) (pres_visitExpr _ r)
  | namedExpr tgt value =>
    have h1 : Pres s (if s.scope_stack = [] then
        { s with global_vars := insertS s.global_vars tgt } else s) := by
      split
      · exact pres_insert_global s tgt
      · exact pres_refl s
    exact pres_trans (pres_trans h1 (pres_visit_Name _ tgt .store))
      (pres_visitExpr _ value)
  | constant => exact pres_refl s

theorem pres_visitOptExpr (s : VState) (v : POptExpr) : Pres s (visitOptExpr s v) := by
  cases v with
  | noneE => exact pres_refl s
  | someE e => exact pres_visitExpr s e

theorem pres_visitExprList (s : VState) (es : PExprList) :
    Pres s (visitExprList s es) := by
  cases es with
  | nil => exact pres_refl s
  | cons e es =>
    exact pres_trans (pres_visitExpr s e) (pres_visitExprList _ es)

theorem pres_visitStmt (s : VState) (t : PStmt) : Pres s (visitStmt s t) := by
  cases t with
  | exprStmt e => exact pres_visitExpr s e
  | assign targets value =>
    exact pres_trans (pres_addNameTargets s targets)
      (pres_trans (pres_visitExprList _ targets) (pres_visitExpr _ value))
  | augAssign target value =>
    exact pres_trans (pres_storeNameAt s target)
      (pres_trans (pres_visitExpr _ target) (pres_visitExpr _ value))
  | annAssign target ann value =>
    exact pres_trans (pres_storeNameAt s target)
      (pres_trans (pres_visitExpr _ target)
        (pres_trans (pres_visitExpr _ ann) (pres_visitOptExpr _ value)))
  | functionDef nm body =>
    exact pres_func s nm body
  | asyncFunctionDef nm body =>
    exact pres_func s nm body
  | classDef nm body =>
    have h1 : Pres s (if s.scope_stack = [] then
        { s with global_vars := insertS s.global_vars nm } else s) := by
      split
      · exact pres_insert_global s nm
      · exact pres_refl s
    have h3 := pres_visitStmtList
      { (if s.scope_stack = [] then
          { s with global_vars := insertS s.global_vars nm } else s) with
        scope_stack := nm :: (if s.scope_stack = [] then
          { s with global_vars := insertS s.global_vars nm } else s).scope_stack }
      body
    refine ⟨?_, ?_, ?_, ?_⟩
    · show (visitStmtList _ body).scope_stack.tail = s.scope_stack
      rw [h3.1]
      exact h1.1
    · exact fun x hx => h3.2.1 x (h1.2.1 x hx)
    · exact fun x hx => h3.2.2.1 x (h1.2.2.1 x hx)
    · exact fun x hx => h3.2.2.2 x (h1.2.2.2 x hx)
  | globalDecl names => exact pres_globalDecl s names
  | importStmt aliases => exact pres_addAliases s aliases
  | importFrom aliases => exact pres_addAliases s aliases
  | ret v => exact pres_visitOptExpr s v
  | pass => exact pres_refl s

theorem pres_func (s : VState) (nm : String) (body : PStmtList) :
    Pres s
      (let s1 := if s.scope_stack = [] then
          { s with global_vars := insertS s.global_vars nm } else s
       let s3 := visitStmtList
         { s1 with function_globals := [], scope_stack := nm :: s1.scope_stack } body
       { s3 with scope_stack := s3.scope_stack.tail,
                 function_globals := s1.function_globals }) := by
  have h1 : Pres s (if s.scope_stack = [] then
      { s with global_vars := insertS s.global_vars nm } else s) := by
    split
    · exact pres_insert_global s nm
    · exact pres_refl s
  have h3 := pres_visitStmtList
    { (if s.scope_stack = [] then
        { s with global_vars := insertS s.global_vars nm } else s) with
      function_globals := [],
      scope_stack := nm :: (if s.scope_stack = [] then
        { s with global_vars := insertS s.global_vars nm } else s).scope_stack }
    body
  refine ⟨?_, ?_, ?_, ?_⟩
  · show (visitStmtList _ body).scope_stack.tail = s.scope_stack
    rw [h3.1]
    exact h1.1
  · exact fun x hx => h3.2.1 x (h1.2.1 x hx)
  · exact fun x hx => h3.2.2.1 x (h1.2.2.1 x hx)
  · exact fun x hx => h3.2.2.2 x (h1.2.2.2 x hx)

theorem pres_visitStmtList (s : VState) (ts : PStmtList) :
    Pres s (visitStmtList s ts) := by
  cases ts with
  | nil => exact pres_refl s
  | cons t ts =>
    exact pres_trans (pres_visitStmt s t) (pres_visitStmtList _ ts)
end

theorem pres_visitTop (s : VState) (l : List PStmt) : Pres s (visitTop s l) := by
  induction l generalizing s with
  | nil => exact pres_refl s
  | cons t ts ih => exact pres_trans (pres_visitStmt s t) (ih _)

theorem visitTop_append (s : VState) (l1 l2 : List PStmt) :
    visitTop s (l1 ++ l2) = visitTop (visitTop s l1) l2 := by
  induction l1 generalizing s with
  | nil => rfl
  | cons t ts ih => simp [visitTop, ih]

/-- Visiting a one-target assignment at module scope records the target
name as a module binding. -/
theorem mem_global_after_assign (s : VState) (x : String) (v : PExpr)
    (hscope : s.scope_stack = []) :
    x ∈ (visitStmt s (.assign (.cons (.name x .store) .nil) v)).global_vars := by
  have h1 : x ∈ (addNameTargets s (.cons (.name x .store) .nil)).global_vars := by
    simp [addNameTargets, storeNameAt, hscope, self_mem_insertS]
  exact (pres_visitExpr _ v).2.1 x ((pres_visitExprList _ _).2.1 x h1)

/-- Visiting a function whose body reads `x` records `x` as a used global
when `x` is already a known module binding (and is not a builtin). -/
theorem mem_used_after_func_read (s : VState) (x fname : String)
    (hscope : s.scope_stack = []) (hb : x ∉ pyBuiltins)
    (hg : x ∈ s.global_vars) :
    x ∈ (visitStmt s
      (.functionDef fname (SL [.exprStmt (.name x .load)]))).used_global_vars := by
  have hx : x ∈ insertS s.global_vars fname := (mem_insertS _ _ _).mpr (Or.inl hg)
  simp [visitStmt, SL, visitStmtList, visitExpr, visit_Name, hscope, hb, hx,
    self_mem_insertS]

theorem foldl_insertS_key_nodup {α : Type} (f : α → String) (l : List α)
    (acc : List String) (h : acc.Nodup) :
    (l.foldl (fun a y => insertS a (f y)) acc).Nodup := by
  induction l generalizing acc with
  | nil => exact h
  | cons a as ih => exact ih _ (insertS_nodup _ _ h)

theorem foldl_insertS_nodup (l : List String) (acc : List String)
    (h : acc.Nodup) : (l.foldl insertS acc).Nodup := by
  induction l generalizing acc with
  | nil => exact h
  | cons a as ih => exact ih _ (insertS_nodup _ _ h)

theorem nodup_visit_Name (s : VState) (id : String) (ctx : Ctx)
    (h : NodupInv s) : NodupInv (visit_Name s id ctx) := by
  obtain ⟨h1, h2, h3, h4⟩ := h
  cases ctx <;> simp only [visit_Name]
  · split
    · exact ⟨h1, h2, h3, h4⟩
    · split
      · exact ⟨h1, insertS_nodup _ _ h2, h3, h4⟩
      · split
        · exact ⟨h1, insertS_nodup _ _ h2, h3, h4⟩
        · split
          · exact ⟨h1, insertS_nodup _ _ h2, h3, h4⟩
          · exact ⟨h1, h2, h3, h4⟩
  · split
    · exact ⟨insertS_nodup _ _ h1, h2, h3, h4⟩
    · exact ⟨h1, h2, h3, h4⟩

theorem nodup_attrBase (s : VState) (id : String) (h : NodupInv s) :
    NodupInv (attrBase s id) := by
  obtain ⟨h1, h2, h3, h4⟩ := h
  simp only [attrBase]
  split
  · exact ⟨h1, insertS_nodup _ _ h2, h3, h4⟩
  · split
    · exact ⟨h1, insertS_nodup _ _ h2, h3, h4⟩
    · split
      · exact ⟨h1, insertS_nodup _ _ h2, h3, h4⟩
      · exact ⟨h1, h2, h3, h4⟩

theorem nodup_storeNameAt (s : VState) (t : PExpr) (h : NodupInv s) :
    NodupInv (storeNameAt s t) := by
  obtain ⟨h1, h2, h3, h4⟩ := h
  cases t <;> simp only [storeNameAt]
  case name id ctx =>
    split
    · exact ⟨insertS_nodup _ _ h1, h2, h3, h4⟩
    · exact ⟨h1, h2, h3, h4⟩
  all_goals exact ⟨h1, h2, h3, h4⟩

theorem nodup_addNameTargets (s : VState) (ts : PExprList) (h : NodupInv s) :
    NodupInv (addNameTargets s ts) := by
  cases ts with
  | nil => exact h
  | cons t ts => exact nodup_addNameTargets _ ts (nodup_storeNameAt s t h)

theorem nodup_addAliases (s : VState) (aliases : List ImpAlias)
    (h : NodupInv s) : NodupInv (addAliases s aliases) :=
  ⟨h.1, h.2.1, foldl_insertS_key_nodup _ aliases _ h.2.2.1, h.2.2.2⟩

mutual
theorem nodup_visitExpr (s : VState) (e : PExpr) (h : NodupInv s) :
    NodupInv (visitExpr s e) := by
  cases e with
  | name id ctx => exact nodup_visit_Name s id ctx h
  | attr value attrName =>
    cases value with
    | name id ctx => exact nodup_attrBase s id h
    | attr v a => exact nodup_visitExpr s (.attr v a) h
    | call f args => exact nodup_visitExpr s (.call f args) h
    | binOp l r => exact nodup_visitExpr s (.binOp l r) h
    | namedExpr t v => exact nodup_visitExpr s (.namedExpr t v) h
    | constant => exact nodup_visitExpr s .constant h
  | call f args =>
    exact nodup_visitExprList _ args (nodup_visitExpr s f h)
  | binOp l r =>
    exact nodup_visitExpr _ r (nodup_visitExpr s l h)
  | namedExpr tgt value =>
    have h1 : NodupInv (if s.scope_stack = [] then
        { s with global_vars := insertS s.global_vars tgt } else s) := by
      split
      · exact ⟨insertS_nodup _ _ h.1, h.2.1, h.2.2.1, h.2.2.2⟩
      · exact h
    exact nodup_visitExpr _ value (nodup_visit_Name _ tgt .store h1)
  | constant => exact h

theorem nodup_visitOptExpr (s : VState) (v : POptExpr) (h : NodupInv s) :
    NodupInv (visitOptExpr s v) := by
  cases v with
  | noneE => exact h
  | someE e => exact nodup_visitExpr s e h

theorem nodup_visitExprList (s : VState) (es : PExprList) (h : NodupInv s) :
    NodupInv (visitExprList s es) := by
  cases es with
  | nil => exact h
  | cons e es => exact nodup_visitExprList _ es (nodup_visitExpr s e h)

theorem nodup_visitStmt (s : VState) (t : PStmt) (h : NodupInv s) :
    NodupInv (visitStmt s t) := by
  cases t with
  | exprStmt e => exact nodup_visitExpr s e h
  | assign targets value =>
    exact nodup_visitExpr _ value
      (nodup_visitExprList _ targets (nodup_addNameTargets s targets h))
  | augAssign target value =>
    exact nodup_visitExpr _ value
      (nodup_visitExpr _ target (nodup_storeNameAt s target h))
  | annAssign target ann value =>
    exact nodup_visitOptExpr _ value
      (nodup_visitExpr _ ann
        (nodup_visitExpr _ target (nodup_storeNameAt s target h)))
  | functionDef nm body => exact nodup_func s nm body h
  | asyncFunctionDef nm body => exact nodup_func s nm body h
  | classDef nm body =>
    have h1 : NodupInv (if s.scope_stack = [] then
        { s with global_vars := insertS s.global_vars nm } else s) := by
      split
      · exact ⟨insertS_nodup _ _ h.1, h.2.1, h.2.2.1, h.2.2.2⟩
      · exact h
    have h3 := nodup_visitStmtList
      { (if s.scope_stack = [] then
          { s with global_vars := insertS s.global_vars nm } else s) with
        scope_stack := nm :: (if s.scope_stack = [] then
          { s with global_vars := insertS s.global_vars nm } else s).scope_stack }
      body ⟨h1.1, h1.2.1, h1.2.2.1, h1.2.2.2⟩
    exact ⟨h3.1, h3.2.1, h3.2.2.1, h3.2.2.2⟩
  | globalDecl names =>
    exact ⟨h.1, h.2.1, h.2.2.1, foldl_insertS_nodup names _ h.2.2.2⟩
  | importStmt aliases => exact nodup_addAliases s aliases h
  | importFrom aliases => exact nodup_addAliases s aliases h
  | ret v => exact nodup_visitOptExpr s v h
  | pass => exact h

theorem nodup_func (s : VState) (nm : String) (body : PStmtList)
    (h : NodupInv s) :
    NodupInv
      (let s1 := if s.scope_stack = [] then
          { s with global_vars := insertS s.global_vars nm } else s
       let s3 := visitStmtList
         { s1 with function_globals := [], scope_stack := nm :: s1.scope_stack } body
       { s3 with scope_stack := s3.scope_stack.tail,
                 function_globals := s1.function_globals }) := by
  have h1 : NodupInv (if s.scope_stack = [] then
      { s with global_vars := insertS s.global_vars nm } else s) := by
    split
    · exact ⟨insertS_nodup _ _ h.1, h.2.1, h.2.2.1, h.2.2.2⟩
    · exact h
  have h3 := nodup_visitStmtList
    { (if s.scope_stack = [] then
        { s with global_vars := insertS s.global_vars nm } else s) with
      function_globals := [],
      scope_stack := nm :: (if s.scope_stack = [] then
        { s with global_vars := insertS s.global_vars nm } else s).scope_stack }
    body ⟨h1.1, h1.2.1, h1.2.2.1, List.nodup_nil⟩
  exact ⟨h3.1, h3.2.1, h3.2.2.1, h1.2.2.2⟩

theorem nodup_visitStmtList (s : VState) (ts : PStmtList) (h : NodupInv s) :
    NodupInv (visitStmtList s ts) := by
  cases ts with
  | nil => exact h
  | cons t ts => exact nodup_visitStmtList _ ts (nodup_visitStmt s t h)
end

theorem nodup_visitTop (s : VState) (l : List PStmt) (h : NodupInv s) :
    NodupInv (visitTop s l) := by
  induction l generalizing s with
  | nil => exact h
  | cons t ts ih => exact ih _ (nodup_visitStmt s t h)

/-- The three sets `get_defined_used_variables` returns are
duplicate-free. -/
theorem gduv_nodup (tree : List PStmt) :
    (get_defined_used_variables tree).1.Nodup ∧
      (get_defined_used_variables tree).2.1.Nodup ∧
      (get_defined_used_variables tree).2.2.Nodup := by
  have h := nodup_visitTop initVState tree
    ⟨List.nodup_nil, List.nodup_nil, List.nodup_nil, List.nodup_nil⟩
  exact ⟨h.1, h.2.1, h.2.2.1⟩

theorem not_mem_insertS (l : List String) (x b : String) (h : b ∉ l)
    (hne : b ≠ x) : b ∉ insertS l x := by
  intro hmem
  exact h (mem_of_mem_insertS_ne l x b hmem hne)

theorem used_storeNameAt (s : VState) (t : PExpr) :
    (storeNameAt s t).used_global_vars = s.used_global_vars := by
  cases t <;> simp only [storeNameAt]
  case name id ctx => split <;> rfl

theorem used_addNameTargets (s : VState) (ts : PExprList) :
    (addNameTargets s ts).used_global_vars = s.used_global_vars := by
  cases ts with
  | nil => rfl
  | cons t ts =>
    show (addNameTargets (storeNameAt s t) ts).used_global_vars = _
    rw [used_addNameTargets _ ts, used_storeNameAt]

theorem builtin_notin_visit_Name (b : String) (hb : b ∈ pyBuiltins)
    (s : VState) (id : String) (ctx : Ctx) (h : b ∉ s.used_global_vars) :
    b ∉ (visit_Name s id ctx).used_global_vars := by
  cases ctx <;> simp only [visit_Name]
  · by_cases hid : id ∈ pyBuiltins
    · simpa [hid] using h
    · have hne : b ≠ id := fun e => hid (e ▸ hb)
      simp only [hid, if_false, if_neg]
      split
      · exact not_mem_insertS _ _ _ h hne
      · split
        · exact not_mem_insertS _ _ _ h hne
        · split
          · exact not_mem_insertS _ _ _ h hne
          · exact h
  · split <;> exact h

mutual
theorem builtin_visitExpr (b : String) (hb : b ∈ pyBuiltins) (s : VState)
    (e : PExpr) (hA : exprNoAttr e = true) (h : b ∉ s.used_global_vars) :
    b ∉ (visitExpr s e).used_global_vars := by
  cases e with
  | name id ctx => exact builtin_notin_visit_Name b hb s id ctx h
  | attr value attrName => simp [exprNoAttr] at hA
  | call f args =>
    simp only [exprNoAttr, Bool.and_eq_true] at hA
    exact builtin_visitExprList b hb _ args hA.2
      (builtin_visitExpr b hb s f hA.1 h)
  | binOp l r =>
    simp only [exprNoAttr, Bool.and_eq_true] at hA
    exact builtin_visitExpr b hb _ r hA.2 (builtin_visitExpr b hb s l hA.1 h)
  | namedExpr tgt value =>
    simp only [exprNoAttr] at hA
    have h1 : b ∉ (if s.scope_stack = [] then
        { s with global_vars := insertS s.global_vars tgt }
        else s).used_global_vars := by
      split <;> exact h
    exact builtin_visitExpr b hb _ value hA
      (builtin_notin_visit_Name b hb _ tgt .store h1)
  | constant => exact h

theorem builtin_visitOptExpr (b : String) (hb : b ∈ pyBuiltins) (s : VState)
    (v : POptExpr) (hA : optExprNoAttr v = true) (h : b ∉ s.used_global_vars) :
    b ∉ (visitOptExpr s v).used_global_vars := by
  cases v with
  | noneE => exact h
  | someE e => exact builtin_visitExpr b hb s e hA h

theorem builtin_visitExprList (b : String) (hb : b ∈ pyBuiltins) (s : VState)
    (es : PExprList) (hA : exprListNoAttr es = true)
    (h : b ∉ s.used_global_vars) :
    b ∉ (visitExprList s es).used_global_vars := by
  cases es with
  | nil => exact h
  | cons e es =>
    simp only [exprListNoAttr, Bool.and_eq_true] at hA
    exact builtin_visitExprList b hb _ es hA.2
      (builtin_visitExpr b hb s e hA.1 h)

theorem builtin_visitStmt (b : String) (hb : b ∈ pyBuiltins) (s : VState)
    (t : PStmt) (hA : stmtNoAttr t = true) (h : b ∉ s.used_global_vars) :
    b ∉ (visitStmt s t).used_global_vars := by
  cases t with
  | exprStmt e => exact builtin_visitExpr b hb s e hA h
  | assign targets value =>
    simp only [stmtNoAttr, Bool.and_eq_true] at hA
    refine builtin_visitExpr b hb _ value hA.2 ?_
    refine builtin_visitExprList b hb _ targets hA.1 ?_
    rw [used_addNameTargets]
    exact h
  | augAssign target value =>
    simp only [stmtNoAttr, Bool.and_eq_true] at hA
    refine builtin_visitExpr b hb _ value hA.2 ?_
    refine builtin_visitExpr b hb _ target hA.1 ?_
    rw [used_storeNameAt]
    exact h
  | annAssign target ann value =>
    simp only [stmtNoAttr, Bool.and_eq_true] at hA
    refine builtin_visitOptExpr b hb _ value hA.2 ?_
    refine builtin_visitExpr b hb _ ann hA.1.2 ?_
    refine builtin_visitExpr b hb _ target hA.1.1 ?_
    rw [used_storeNameAt]
    exact h
  | functionDef nm body => exact builtin_func b hb s nm body hA h
  | asyncFunctionDef nm body => exact builtin_func b hb s nm body hA h
  | classDef nm body =>
    simp only [stmtNoAttr] at hA
    have h1 : b ∉ (if s.scope_stack = [] then
        { s with global_vars := insertS s.global_vars nm }
        else s).used_global_vars := by
      split <;> exact h
    exact builtin_visitStmtList b hb _ body hA h1
  | globalDecl names => exact h
  | importStmt aliases => exact h
  | importFrom aliases => exact h
  | ret v => exact builtin_visitOptExpr b hb s v hA h
  | pass => exact h

theorem builtin_func (b : String) (hb : b ∈ pyBuiltins) (s : VState)
    (nm : String) (body : PStmtList) (hA : stmtListNoAttr body = true)
    (h : b ∉ s.used_global_vars) :
    b ∉ (let s1 := if s.scope_stack = [] then
          { s with global_vars := insertS s.global_vars nm } else s
         let s3 := visitStmtList
           { s1 with function_globals := [],
                     scope_stack := nm :: s1.scope_stack } body
         { s3 with scope_stack := s3.scope_stack.tail,
                   function_globals := s1.function_globals }).used_global_vars := by
  have h1 : b ∉ (if s.scope_stack = [] then
      { s with global_vars := insertS s.global_vars nm }
      else s).used_global_vars := by
    split <;> exact h
  exact builtin_visitStmtList b hb _ body hA h1

theorem builtin_visitStmtList (b : String) (hb : b ∈ pyBuiltins) (s : VState)
    (ts : PStmtList) (hA : stmtListNoAttr ts = true)
    (h : b ∉ s.used_global_vars) :
    b ∉ (visitStmtList s ts).used_global_vars := by
  cases ts with
  | nil => exact h
  | cons t ts =>
    simp only [stmtListNoAttr, Bool.and_eq_true] at hA
    exact builtin_visitStmtList b hb _ ts hA.2
      (builtin_visitStmt b hb s t hA.1 h)
end

/-! Membership characterization of the template-variable extractor. -/

theorem mem_filterInsert_foldl (l acc : List String) (x : String) :
    x ∈ l.foldl
        (fun a m => if lowerStr m ∈ sql_keywords then a else insertS a m) acc ↔
      x ∈ acc ∨ (x ∈ l ∧ lowerStr x ∉ sql_keywords) := by
  induction l generalizing acc with
  | nil => simp
  | cons a as ih =>
    simp only [List.foldl_cons, ih, List.mem_cons]
    by_cases h : lowerStr a ∈ sql_keywords
    · simp only [h, if_true, if_pos]
      constructor
      · rintro (hx | hx)
        · exact Or.inl hx
        · exact Or.inr ⟨Or.inr hx.1, hx.2⟩
      · rintro (hx | ⟨rfl | hx, hk⟩)
        · exact Or.inl hx
        · exact absurd h hk
        · exact Or.inr ⟨hx, hk⟩
    · simp only [h, if_false, if_neg, mem_insertS]
      constructor
      · rintro ((hx | rfl) | hx)
        · exact Or.inl hx
        · exact Or.inr ⟨Or.inl rfl, h⟩
        · exact Or.inr ⟨Or.inr hx.1, hx.2⟩
      · rintro (hx | ⟨rfl | hx, hk⟩)
        · exact Or.inl (Or.inl hx)
        · exact Or.inl (Or.inr rfl)
        · exact Or.inr ⟨hx, hk⟩

theorem foldl_filterInsert_nodup (l acc : List String) (h : acc.Nodup) :
    (l.foldl
      (fun a m => if lowerStr m ∈ sql_keywords then a else insertS a m)
      acc).Nodup := by
  induction l generalizing acc with
  | nil => exact h
  | cons a as ih =>
    simp only [List.foldl_cons]
    split
    · exact ih _ h
    · exact ih _ (insertS_nodup _ _ h)

/-- A name comes out of `extract_jinja_variables` exactly when it is a
`\x7b\x7b`-expression name, or an identifier following one of the four
keywords in the cleaned text that is not stoplisted. -/
theorem mem_extract_jinja_variables (s x : String) :
    x ∈ extract_jinja_variables s ↔
      x ∈ mustacheVars s ∨
        ((∃ kw ∈ table_kws, x ∈ tableMatches kw s) ∧
          lowerStr x ∉ sql_keywords) := by
  simp only [extract_jinja_variables, table_kws, List.foldl_cons,
    List.foldl_nil, mem_filterInsert_foldl, mem_dedupIns]
  constructor
  · rintro ((((hx | hx) | hx) | hx) | hx)
    · exact Or.inl hx
    · exact Or.inr ⟨⟨"from", by simp, hx.1⟩, hx.2⟩
    · exact Or.inr ⟨⟨"join", by simp, hx.1⟩, hx.2⟩
    · exact Or.inr ⟨⟨"into", by simp, hx.1⟩, hx.2⟩
    · exact Or.inr ⟨⟨"update", by simp, hx.1⟩, hx.2⟩
  · rintro (hx | ⟨⟨kw, hkw, hx⟩, hk⟩)
    · exact Or.inl (Or.inl (Or.inl (Or.inl hx)))
    · simp only [List.mem_cons, List.not_mem_nil, or_false] at hkw
      rcases hkw with rfl | rfl | rfl | rfl
      · exact Or.inl (Or.inl (Or.inl (Or.inr ⟨hx, hk⟩)))
      · exact Or.inl (Or.inl (Or.inr ⟨hx, hk⟩))
      · exact Or.inl (Or.inr ⟨hx, hk⟩)
      · exact Or.inr ⟨hx, hk⟩

theorem extract_jinja_variables_nodup (s : String) :
    (extract_jinja_variables s).Nodup := by
  simp only [extract_jinja_variables, table_kws, List.foldl_cons,
    List.foldl_nil]
  exact foldl_filterInsert_nodup _ _
    (foldl_filterInsert_nodup _ _
      (foldl_filterInsert_nodup _ _
        (foldl_filterInsert_nodup _ _ (dedupIns_nodup _))))

/-! Character-class facts feeding the sanitizer boundary property. -/

theorem isSpaceC_false_of_dp (c : Char)
    (h : isDigitC c = true ∨ isPunctC c = true) : isSpaceC c = false := by
  cases hs : isSpaceC c
  · rfl
  · exfalso
    simp only [isSpaceC, Bool.or_eq_true, beq_iff_eq] at hs
    rcases hs with ((((rfl | rfl) | rfl) | rfl) | rfl) | rfl <;>
      rcases h with h | h <;> exact absurd h (by decide)

theorem collapseWsGo_id (n : Nat) (l : List Char) (hn : l.length ≤ n)
    (h : ∀ c ∈ l, isSpaceC c = false) : collapseWsGo n l = l := by
  induction n generalizing l with
  | zero =>
    cases l with
    | nil => rfl
    | cons c rest => simp at hn
  | succ n ih =>
    cases l with
    | nil => rfl
    | cons c rest =>
      have hc := h c (List.mem_cons_self c rest)
      simp only [collapseWsGo, hc, Bool.false_eq_true, if_false, if_neg]
      congr 1
      exact ih rest (by simpa using Nat.le_of_succ_le_succ (by simpa using hn))
        (fun d hd => h d (List.mem_cons_of_mem c hd))

theorem isWordC_false_of_punct (c : Char) (h : isPunctC c = true) :
    isWordC c = false := by
  simp only [isPunctC, Bool.and_eq_true, Bool.not_eq_true'] at h
  obtain ⟨⟨⟨_, ha⟩, hd⟩, hu⟩ := h
  simp [isWordC, ha, hd, hu]

theorem isIdentStartC_false_of_digit (c : Char) (h : isDigitC c = true) :
    isIdentStartC c = false := by
  have hn : 48 ≤ c.toNat ∧ c.toNat ≤ 57 := by simpa [isDigitC] using h
  have hne : (c == '_') = false := by
    refine beq_eq_false_iff_ne.mpr ?_
    intro he
    subst he
    exact absurd hn (by decide)
  have ha : isAlphaC c = false := by
    simp only [isAlphaC, decide_eq_false_iff_not]
    omega
  simp [isIdentStartC, ha, hne]

/-! Reduction of the dispatcher on each branch condition. -/

theorem analyze_block_body_missing_id (b : Block) (hid : b.blockId = none) :
    analyze_block_body b =
      .error { type := "KeyError", message := "\x27blockId\x27" } := by
  simp only [analyze_block_body, hid]

theorem analyze_block_body_code (b : Block) (bid : String)
    (hid : b.blockId = some bid) (ht : blockTypeOf b = "code")
    (tree : List PStmt) (hp : b.code_py = .ok tree) :
    analyze_block_body b =
      .ok { blockId := bid,
            definedVariables := sortS (get_defined_used_variables tree).1,
            usedVariables := sortS (get_defined_used_variables tree).2.1,
            importedModules := (get_defined_used_variables tree).2.2 } := by
  simp only [analyze_block_body, hid, ht, if_pos, hp]

theorem analyze_block_body_code_err (b : Block) (bid : String)
    (hid : b.blockId = some bid) (ht : blockTypeOf b = "code")
    (e : PyErr) (hp : b.code_py = .error e) :
    analyze_block_body b = .error e := by
  simp only [analyze_block_body, hid, ht, if_pos, hp]

theorem analyze_block_body_sql (b : Block) (bid : String)
    (hid : b.blockId = some bid) (ht : blockTypeOf b = "sql") :
    analyze_block_body b =
      .ok { blockId := bid,
            definedVariables := truthyList b.metadata.deepnote_variable_name,
            usedVariables := sortS (extract_jinja_variables b.code_text),
            importedModules := [] } := by
  simp only [analyze_block_body, hid, ht]
  simp

theorem analyze_block_body_button (b : Block) (bid : String)
    (hid : b.blockId = some bid) (ht : blockTypeOf b = "button") :
    analyze_block_body b =
      .ok { blockId := bid,
            definedVariables := truthyList b.metadata.deepnote_variable_name,
            usedVariables := [], importedModules := [] } := by
  simp only [analyze_block_body, hid, ht]
  simp

theorem analyze_block_body_big_number (b : Block) (bid : String)
    (hid : b.blockId = some bid) (ht : blockTypeOf b = "big-number") :
    analyze_block_body b =
      .ok { blockId := bid, definedVariables := [],
            usedVariables :=
              sortS (dedupIns
                (truthyList b.metadata.deepnote_big_number_value ++
                  truthyList b.metadata.deepnote_big_number_comparison_value)),
            importedModules := [] } := by
  simp only [analyze_block_body, hid, ht]
  simp

theorem analyze_block_body_input (b : Block) (bid : String)
    (hid : b.blockId = some bid)
    (hc : blockTypeOf b ≠ "code") (hs : blockTypeOf b ≠ "sql")
    (hb : blockTypeOf b ≠ "button") (hn : blockTypeOf b ≠ "big-number")
    (hi : leadsWith "input-".data (blockTypeOf b).data = true) :
    analyze_block_body b =
      .ok { blockId := bid,
            definedVariables :=
              (match b.metadata.deepnote_variable_name with
               | some vn =>
                 if vn = "" then [] else [sanitize_python_variable_name vn]
               | none => []),
            usedVariables := [], importedModules := [] } := by
  simp only [analyze_block_body, hid]
  rw [if_neg hc, if_neg hs, if_neg hb, if_neg hn, if_pos (by simp [hi])]

theorem analyze_block_body_other (b : Block) (bid : String)
    (hid : b.blockId = some bid)
    (hc : blockTypeOf b ≠ "code") (hs : blockTypeOf b ≠ "sql")
    (hb : blockTypeOf b ≠ "button") (hn : blockTypeOf b ≠ "big-number")
    (hi : leadsWith "input-".data (blockTypeOf b).data = false) :
    analyze_block_body b =
      .ok { blockId := bid, definedVariables := [], usedVariables := [],
            importedModules := [] } := by
  simp only [analyze_block_body, hid]
  rw [if_neg hc, if_neg hs, if_neg hb, if_neg hn, if_neg (by simp [hi])]

/-- Every successful dispatch leaves the `error` field absent. -/
theorem analyze_block_body_ok_no_error (b : Block) (r : AnalysisResult)
    (h : analyze_block_body b = .ok r) : r.error = none := by
  rcases hid : b.blockId with _ | bid
  · rw [analyze_block_body_missing_id b hid] at h
    exact absurd h (by simp)
  · by_cases hc : blockTypeOf b = "code"
    · rcases hp : b.code_py with e | tree
      · rw [analyze_block_body_code_err b bid hid hc e hp] at h
        exact absurd h (by simp)
      · rw [analyze_block_body_code b bid hid hc tree hp] at h
        simp only [Except.ok.injEq] at h
        rw [← h]
    · by_cases hs : blockTypeOf b = "sql"
      · rw [analyze_block_body_sql b bid hid hs] at h
        simp only [Except.ok.injEq] at h
        rw [← h]
      · by_cases hbt : blockTypeOf b = "button"
        · rw [analyze_block_body_button b bid hid hbt] at h
          simp only [Except.ok.injEq] at h
          rw [← h]
        · by_cases hbn : blockTypeOf b = "big-number"
          · rw [analyze_block_body_big_number b bid hid hbn] at h
            simp only [Except.ok.injEq] at h
            rw [← h]
          · cases hi : leadsWith "input-".data (blockTypeOf b).data
            · rw [analyze_block_body_other b bid hid hc hs hbt hbn hi] at h
              simp only [Except.ok.injEq] at h
              rw [← h]
            · rw [analyze_block_body_input b bid hid hc hs hbt hbn hi] at h
              simp only [Except.ok.injEq] at h
              rw [← h]

/-! Result shape of `analyze_block` on each outcome of the dispatch. -/

theorem analyze_block_of_ok (b : Block) (r : AnalysisResult)
    (h : analyze_block_body b = .ok r) : analyze_block b = r := by
  simp [analyze_block, h]

theorem analyze_block_of_err (b : Block) (e : PyErr)
    (h : analyze_block_body b = .error e) :
    analyze_block b =
      { blockId := b.blockId.getD "unknown", definedVariables := [],
        usedVariables := [], importedModules := [], error := some e } := by
  simp [analyze_block, h]

theorem builtin_visitTop (b : String) (hb : b ∈ pyBuiltins) (l : List PStmt)
    (hA : l.all stmtNoAttr = true) (s : VState)
    (h : b ∉ s.used_global_vars) :
    b ∉ (visitTop s l).used_global_vars := by
  induction l generalizing s with
  | nil => exact h
  | cons t ts ih =>
    simp only [List.all_cons, Bool.and_eq_true] at hA
    exact ih hA.2 _ (builtin_visitStmt b hb s t hA.1 h)

/-! Claim theorems. -/

/-- C1, counterexample: the analyzer is single-pass, not two-pass.  In the
fragment `def f():\n    return a\na = 1`, the name `a` is bound at module
scope (it ends up in the returned binding set), is read inside the nested
function `f` with no `global a` redeclaration, and yet the returned
used-variable set is empty, because the module binding is only visited
after the read.  Two-pass semantics would require `a` among the used
variables, so the claim as stated is false on this fragment. -/
theorem c1_two_pass_counterexample :
    "a" ∈ (get_defined_used_variables
        [.functionDef "f" (SL [.ret (.someE (.name "a" .load))]),
         .assign (.cons (.name "a" .store) .nil) .constant]).1 ∧
    (get_defined_used_variables
        [.functionDef "f" (SL [.ret (.someE (.name "a" .load))]),
         .assign (.cons (.name "a" .store) .nil) .constant]).2.1 = [] := by
  constructor
  · decide
  · decide

/-- C1, amended: the analyzer is single-pass; a read of a non-builtin name
`x` inside a nested function scope (not covered by a `global x`
redeclaration there) is included in the used set whenever some module-scope
binding of `x` has already been traversed when the read is visited — in
particular whenever a module-scope assignment to `x` textually precedes
the function.  A module-scope binding appearing only after the read does
not make the read count (see the counterexample). -/
theorem c1_single_pass_nested_read (pre post : List PStmt) (x fname : String)
    (v : PExpr) (hb : x ∉ pyBuiltins) :
    x ∈ (get_defined_used_variables
      (pre ++ .assign (.cons (.name x .store) .nil) v ::
        .functionDef fname (SL [.exprStmt (.name x .load)]) :: post)).2.1 := by
  show x ∈ (visitTop initVState _).used_global_vars
  rw [visitTop_append]
  have hscope : (visitTop initVState pre).scope_stack = [] :=
    (pres_visitTop _ pre).1
  have h1 := mem_global_after_assign (visitTop initVState pre) x v hscope
  have hscope1 : (visitStmt (visitTop initVState pre)
      (.assign (.cons (.name x .store) .nil) v)).scope_stack = [] :=
    (pres_visitStmt _ _).1.trans hscope
  have h2 := mem_used_after_func_read _ x fname hscope1 hb h1
  exact (pres_visitTop _ post).2.2.1 x h2

/-- Witness for C1: instantiating the amended theorem on the reversed
fragment `a = 1` before `def f(): a`. -/
theorem c1_single_pass_nested_read_witness :
    "a" ∉ pyBuiltins ∧
    "a" ∈ (get_defined_used_variables
      [.assign (.cons (.name "a" .store) .nil) .constant,
       .functionDef "f" (SL [.exprStmt (.name "a" .load)])]).2.1 :=
  ⟨by decide,
   c1_single_pass_nested_read [] [] "a" "f" .constant (by decide)⟩

/-- C2, counterexample: the sanitizer maps `"2 cool variable!"` to
`"_cool_variable"`, not `"cool_variable"`: the whitespace run before
`cool` becomes an underscore first, and the leading-strip step removes
only the digit `2` because it stops at the underscore (which is in
`[a-zA-Z_]`). -/
theorem c2_sanitizer_counterexample :
    sanitize_python_variable_name "2 cool variable!" = "_cool_variable" ∧
    "_cool_variable" ≠ "cool_variable" := by
  constructor
  · decide
  · decide

/-- C2, amended: the sanitizer, applied in order (collapse whitespace runs
to `_`, delete characters outside `[A-Za-z0-9_]`, strip a leading run of
characters that are not a letter or `_`, substitute `input_1` if empty),
maps `"2 cool variable!"` to `"_cool_variable"`, maps `""` to `"input_1"`,
and maps every string consisting only of digits and (non-underscore)
punctuation to `"input_1"`. -/
theorem c2_sanitizer_boundaries :
    sanitize_python_variable_name "2 cool variable!" = "_cool_variable" ∧
    sanitize_python_variable_name "" = "input_1" ∧
    ∀ s : String, (∀ c ∈ s.data, isDigitC c = true ∨ isPunctC c = true) →
      sanitize_python_variable_name s = "input_1" := by
  refine ⟨by decide, by decide, ?_⟩
  intro s hs
  have h1 : collapseWsGo s.data.length s.data = s.data :=
    collapseWsGo_id _ _ le_rfl (fun c hc => isSpaceC_false_of_dp c (hs c hc))
  have h2 : ∀ c ∈ s.data.filter isWordC, isDigitC c = true := by
    intro c hc
    rw [List.mem_filter] at hc
    rcases hs c hc.1 with h | h
    · exact h
    · exact absurd hc.2 (by simp [isWordC_false_of_punct c h])
  have h3 : (s.data.filter isWordC).dropWhile (fun c => !(isIdentStartC c)) =
      [] := by
    rw [List.dropWhile_eq_nil_iff]
    intro c hc
    simp [isIdentStartC_false_of_digit c (h2 c hc)]
  simp only [sanitize_python_variable_name, h1, h3]
  rfl

/-- Witness for C2: the all-digit/punctuation string `"123!?"` sanitizes
to `"input_1"`. -/
theorem c2_sanitizer_boundaries_witness :
    sanitize_python_variable_name "123!?" = "input_1" :=
  c2_sanitizer_boundaries.2.2 "123!?" (by decide)

/-- C3, counterexample: the builtin filter is not applied on the
attribute-base path.  Analyzing the code block `str.x` puts the builtin
name `str` into `usedVariables`, because `visit_Attribute` records the
base name of an attribute access without consulting the builtin set. -/
theorem c3_builtin_attribute_counterexample :
    "str" ∈ pyBuiltins ∧
    (analyze_block
      { blockId := some "c", type := some "code",
        code_py := .ok [.exprStmt (.attr (.name "str" .load) "x")] }).usedVariables =
      ["str"] := by
  constructor
  · decide
  · decide

/-- C3, amended: the builtin exclusion holds for bare-name reads in every
scope: in any code fragment containing no attribute-access expression, a
builtin name never appears in the `usedVariables` of the resulting
`AnalysisResult`.  (When a builtin is read as the base of an attribute
access it is recorded — see the counterexample.) -/
theorem c3_builtin_bare_reads_excluded (bid : String) (tree : List PStmt)
    (b : String) (ct : String) (md : Metadata) (hb : b ∈ pyBuiltins)
    (hA : tree.all stmtNoAttr = true) :
    b ∉ (analyze_block
      { blockId := some bid, type := some "code",
        code_py := .ok tree, code_text := ct, metadata := md }).usedVariables := by
  have hbody := analyze_block_body_code
    { blockId := some bid, type := some "code",
      code_py := .ok tree, code_text := ct, metadata := md }
    bid rfl rfl tree rfl
  rw [analyze_block_of_ok _ _ hbody]
  intro hmem
  have hm : b ∈ (get_defined_used_variables tree).2.1 :=
    (sortS_perm _).mem_iff.mp hmem
  exact builtin_visitTop b hb tree hA initVState (List.not_mem_nil b) hm

/-- Witness for C3: `print(len(...))` leaves `print` out of the used
variables. -/
theorem c3_builtin_bare_reads_excluded_witness :
    "print" ∉ (analyze_block
      { blockId := some "c", type := some "code",
        code_py := .ok [.exprStmt (.call (.name "print" .load)
          (.cons (.call (.name "len" .load) (.cons .constant .nil)) .nil))] }).usedVariables :=
  c3_builtin_bare_reads_excluded "c"
    [.exprStmt (.call (.name "print" .load)
      (.cons (.call (.name "len" .load) (.cons .constant .nil)) .nil))]
    "print" "" {} (by decide) (by decide)

/-- C7: analyzing `def f():\n    global w\n    w = 5\n` alone yields
`definedVariables = ["f"]` and `usedVariables = []`: the `global w`
redeclaration alone does not create a module binding for `w`, and the
assignment inside the function is not recorded at module scope. -/
theorem c7_global_asymmetry :
    analyze_block
      { blockId := some "g", type := some "code",
        code_py := .ok [.functionDef "f" (SL [.globalDecl ["w"],
          .assign (.cons (.name "w" .store) .nil) .constant])] } =
      { blockId := "g", definedVariables := ["f"], usedVariables := [],
        importedModules := [], error := none } := by
  decide

/-- C9: the builtin exclusion applies only to reads, never to bindings:
for every fragment, a builtin name that is the target of a module-scope
assignment is included in the returned binding set exactly like any other
module-scope binding. -/
theorem c9_builtin_binding (pre post : List PStmt) (b : String) (v : PExpr)
    (_hb : b ∈ pyBuiltins) :
    b ∈ (get_defined_used_variables
      (pre ++ .assign (.cons (.name b .store) .nil) v :: post)).1 := by
  show b ∈ (visitTop initVState _).global_vars
  rw [visitTop_append]
  have hscope : (visitTop initVState pre).scope_stack = [] :=
    (pres_visitTop _ pre).1
  exact (pres_visitTop _ post).2.1 b
    (mem_global_after_assign (visitTop initVState pre) b v hscope)

/-- Witness for C9: `list = [1, 2]` at module scope defines `list`. -/
theorem c9_builtin_binding_witness :
    "list" ∈ pyBuiltins ∧
    "list" ∈ (get_defined_used_variables
      [.assign (.cons (.name "list" .store) .nil) .constant]).1 :=
  ⟨by decide, c9_builtin_binding [] [] "list" .constant (by decide)⟩

theorem truthyList_nodup (o : Option String) : (truthyList o).Nodup := by
  rcases o with _ | s
  · exact List.nodup_nil
  · simp only [truthyList]
    split
    · exact List.nodup_nil
    · exact List.nodup_singleton s

theorem truthyList_sorted (o : Option String) :
    List.Sorted (fun a c => strLe a c = true) (truthyList o) := by
  rcases o with _ | s
  · exact List.sorted_nil
  · simp only [truthyList]
    split
    · exact List.sorted_nil
    · exact List.sorted_singleton s

/-- C4, counterexample: the scripts batch driver has no fall-through
branch; a block with the unrecognized type tag `mystery` is skipped
entirely, so one input block yields zero results instead of one
empty-listed result. -/
theorem c4_skip_counterexample :
    Scripts.analyze_blocks [{ blockId := some "b1", type := some "mystery" }] =
      .ok [] ∧
    ∀ res : List AnalysisResult,
      Scripts.analyze_blocks
          [{ blockId := some "b1", type := some "mystery" }] = .ok res →
        res.length ≠ 1 := by
  refine ⟨rfl, ?_⟩
  intro res h
  have h2 : (Except.ok ([] : List AnalysisResult) :
      Except PyErr (List AnalysisResult)) = .ok res := h
  simp only [Except.ok.injEq] at h2
  rw [← h2]
  decide

/-- C4, amended: the browser batch analysis produces exactly N results in
input order, one per block, and a block with an unrecognized type tag
yields a result with empty `definedVariables`, `usedVariables` and
`importedModules`; the scripts variant instead skips blocks whose type tag
matches no branch (see the counterexample). -/
theorem c4_batch_shape :
    (∀ bs : List Block, (analyze_blocks bs).length = bs.length ∧
       ∀ k : Nat, (analyze_blocks bs).get? k = (bs.get? k).map analyze_block) ∧
    (∀ (bid t : String) (cp : Except PyErr (List PStmt)) (ct : String)
       (md : Metadata), t ≠ "" → t ≠ "code" → t ≠ "sql" → t ≠ "button" →
       t ≠ "big-number" → leadsWith "input-".data t.data = false →
       analyze_block
           { blockId := some bid, type := some t, code_py := cp,
             code_text := ct, metadata := md } =
         { blockId := bid, definedVariables := [], usedVariables := [],
           importedModules := [], error := none }) := by
  constructor
  · intro bs
    constructor
    · simp [analyze_blocks]
    · intro k
      simp [analyze_blocks]
  · intro bid t cp ct md h0 h1 h2 h3 h4 h5
    have ht : blockTypeOf
        { blockId := some bid, type := some t,
          code_py := cp, code_text := ct, metadata := md } = t := by
      simp [blockTypeOf, h0]
    exact analyze_block_of_ok _ _
      (analyze_block_body_other _ bid rfl (by rw [ht]; exact h1)
        (by rw [ht]; exact h2) (by rw [ht]; exact h3) (by rw [ht]; exact h4)
        (by rw [ht]; exact h5))

/-- Witness for C4: a block typed `mystery` in the browser analyzer still
yields one result with three empty lists. -/
theorem c4_batch_shape_witness :
    analyze_block
      { blockId := some "b1", type := some "mystery",
        code_py := .ok [], code_text := "", metadata := {} } =
      { blockId := "b1", definedVariables := [], usedVariables := [],
        importedModules := [], error := none } :=
  c4_batch_shape.2 "b1" "mystery" (.ok []) "" {} (by decide) (by decide)
    (by decide) (by decide) (by decide) (by decide)

/-- C5, counterexample, in two parts.  First, `importedModules` is
emitted without sorting (the source converts the set straight to a list),
so the code block `import b\nimport a` yields `["b", "a"]`, which is not
in lexicographic order.  Second, in the scripts variant not even
duplicate-freedom holds: the `notebook-function` branch appends sanitized
input names with no deduplication, so a block whose two inputs are both
configured with `variable_name` `x` yields `usedVariables = ["x", "x"]`. -/
theorem c5_order_dedup_counterexample :
    ((analyze_block
      { blockId := some "m", type := some "code",
        code_py := .ok [.importStmt [⟨"b", none⟩],
          .importStmt [⟨"a", none⟩]] }).importedModules = ["b", "a"] ∧
     ¬ List.Sorted (fun a c => strLe a c = true) ["b", "a"]) ∧
    (Scripts.analyze_blocks
        [{ blockId := some "nf", type := some "notebook-function",
           metadata :=
             { function_notebook_inputs :=
                 [("i1", { custom_value := none, variable_name := some "x" }),
                  ("i2", { custom_value := none, variable_name := some "x" })] } }] =
       .ok [{ blockId := "nf", definedVariables := [],
              usedVariables := ["x", "x"], importedModules := [],
              error := none }] ∧
     ¬ (["x", "x"] : List String).Nodup) := by
  refine ⟨⟨by decide, by decide⟩, rfl, by decide⟩

/-- C5, amended: in the browser analyzer, for every block,
`definedVariables` and `usedVariables` are duplicate-free and in
lexicographic order, while `importedModules` is duplicate-free (it is a
set) but emitted without sorting; analyzing the same block twice trivially
yields identical results since the analysis is a pure function of the
block.  In the scripts variant the `notebook-function` branch can emit
duplicates (see the counterexample). -/
theorem c5_output_lists (b : Block) :
    (analyze_block b).definedVariables.Nodup ∧
    List.Sorted (fun a c => strLe a c = true)
      (analyze_block b).definedVariables ∧
    (analyze_block b).usedVariables.Nodup ∧
    List.Sorted (fun a c => strLe a c = true) (analyze_block b).usedVariables ∧
    (analyze_block b).importedModules.Nodup := by
  rcases hid : b.blockId with _ | bid
  · rw [analyze_block_of_err b _ (analyze_block_body_missing_id b hid)]
    exact ⟨List.nodup_nil, List.sorted_nil, List.nodup_nil, List.sorted_nil,
      List.nodup_nil⟩
  · by_cases hc : blockTypeOf b = "code"
    · rcases hp : b.code_py with e | tree
      · rw [analyze_block_of_err b e
          (analyze_block_body_code_err b bid hid hc e hp)]
        exact ⟨List.nodup_nil, List.sorted_nil, List.nodup_nil,
          List.sorted_nil, List.nodup_nil⟩
      · rw [analyze_block_of_ok _ _
          (analyze_block_body_code b bid hid hc tree hp)]
        exact ⟨sortS_nodup _ (gduv_nodup tree).1, sortS_sorted _,
          sortS_nodup _ (gduv_nodup tree).2.1, sortS_sorted _,
          (gduv_nodup tree).2.2⟩
    · by_cases hs : blockTypeOf b = "sql"
      · rw [analyze_block_of_ok _ _ (analyze_block_body_sql b bid hid hs)]
        exact ⟨truthyList_nodup _, truthyList_sorted _,
          sortS_nodup _ (extract_jinja_variables_nodup _), sortS_sorted _,
          List.nodup_nil⟩
      · by_cases hbt : blockTypeOf b = "button"
        · rw [analyze_block_of_ok _ _
            (analyze_block_body_button b bid hid hbt)]
          exact ⟨truthyList_nodup _, truthyList_sorted _, List.nodup_nil,
            List.sorted_nil, List.nodup_nil⟩
        · by_cases hbn : blockTypeOf b = "big-number"
          · rw [analyze_block_of_ok _ _
              (analyze_block_body_big_number b bid hid hbn)]
            exact ⟨List.nodup_nil, List.sorted_nil,
              sortS_nodup _ (dedupIns_nodup _), sortS_sorted _,
              List.nodup_nil⟩
          · cases hi : leadsWith "input-".data (blockTypeOf b).data
            · rw [analyze_block_of_ok _ _
                (analyze_block_body_other b bid hid hc hs hbt hbn hi)]
              exact ⟨List.nodup_nil, List.sorted_nil, List.nodup_nil,
                List.sorted_nil, List.nodup_nil⟩
            · rw [analyze_block_of_ok _ _
                (analyze_block_body_input b bid hid hc hs hbt hbn hi)]
              refine ⟨?_, ?_, List.nodup_nil, List.sorted_nil,
                List.nodup_nil⟩
              · rcases hv : b.metadata.deepnote_variable_name with _ | vn
                · exact List.nodup_nil
                · simp only []
                  split
                  · exact List.nodup_nil
                  · exact List.nodup_singleton _
              · rcases hv : b.metadata.deepnote_variable_name with _ | vn
                · exact List.sorted_nil
                · simp only []
                  split
                  · exact List.sorted_nil
                  · exact List.sorted_singleton _

/-- Witness for C5: the output-list invariants at a concrete code
block. -/
theorem c5_output_lists_witness :
    (analyze_block
      { blockId := some "m", type := some "code",
        code_py := .ok [.importStmt [⟨"b", none⟩],
          .importStmt [⟨"a", none⟩]] }).definedVariables.Nodup ∧
    List.Sorted (fun a c => strLe a c = true)
      (analyze_block
        { blockId := some "m", type := some "code",
          code_py := .ok [.importStmt [⟨"b", none⟩],
            .importStmt [⟨"a", none⟩]] }).definedVariables ∧
    (analyze_block
      { blockId := some "m", type := some "code",
        code_py := .ok [.importStmt [⟨"b", none⟩],
          .importStmt [⟨"a", none⟩]] }).usedVariables.Nodup ∧
    List.Sorted (fun a c => strLe a c = true)
      (analyze_block
        { blockId := some "m", type := some "code",
          code_py := .ok [.importStmt [⟨"b", none⟩],
            .importStmt [⟨"a", none⟩]] }).usedVariables ∧
    (analyze_block
      { blockId := some "m", type := some "code",
        code_py := .ok [.importStmt [⟨"b", none⟩],
          .importStmt [⟨"a", none⟩]] }).importedModules.Nodup :=
  c5_output_lists
    { blockId := some "m", type := some "code",
      code_py := .ok [.importStmt [⟨"b", none⟩], .importStmt [⟨"a", none⟩]] }

theorem scripts_stepBlock_ok (acc : List AnalysisResult) (b : Block)
    (h : b.blockId ≠ none) :
    ∃ acc2, Scripts.stepBlock acc b = .ok acc2 := by
  rcases htry : Scripts.tryOne b with e | o
  · rcases hid : b.blockId with _ | i
    · exact absurd hid h
    · refine ⟨acc ++
        [{ blockId := i, definedVariables := [], usedVariables := [],
           importedModules := [], error := some e }], ?_⟩
      simp [Scripts.stepBlock, htry, hid]
  · rcases o with _ | r
    · exact ⟨acc, by simp [Scripts.stepBlock, htry]⟩
    · exact ⟨acc ++ [r], by simp [Scripts.stepBlock, htry]⟩

/-- The scripts loop never aborts when every block carries an `id` key:
each turn of the fold succeeds, whether the block analyzed cleanly, was
skipped, or had its exception converted to an error result. -/
theorem scripts_no_escape (bs : List Block)
    (h : ∀ b ∈ bs, b.blockId ≠ none) :
    ∃ res : List AnalysisResult, Scripts.analyze_blocks bs = .ok res := by
  suffices key : ∀ (l : List Block) (acc : List AnalysisResult),
      (∀ b ∈ l, b.blockId ≠ none) →
      ∃ res, List.foldlM Scripts.stepBlock acc l = .ok res by
    exact key bs [] h
  intro l
  induction l with
  | nil => exact fun acc _ => ⟨acc, rfl⟩
  | cons b bsTail ih =>
    intro acc hl
    obtain ⟨acc2, h2⟩ :=
      scripts_stepBlock_ok acc b (hl b (List.mem_cons_self b bsTail))
    rw [List.foldlM_cons, h2]
    show ∃ res, List.foldlM Scripts.stepBlock acc2 bsTail = .ok res
    exact ih acc2 (fun x hx => hl x (List.mem_cons_of_mem b hx))

/-- C6, counterexample: in the scripts variant an exception does escape
the per-block dispatch.  The `except` clause builds its error result with
`block["id"]`, so when the first block of a two-block batch fails (here:
its `id` key is missing, the very exception being handled) the handler
re-raises `KeyError` and the whole batch aborts with no result list —
instead of the claimed two results with only the first carrying `error`. -/
theorem c6_escape_counterexample :
    Scripts.analyze_blocks
        [{ blockId := none, type := some "code" },
         { blockId := some "g", type := some "code" }] =
      .error { type := "KeyError", message := "\x27id\x27" } := rfl

/-- C6, amended: in the browser analyzer any exception in per-block
processing is caught at the dispatch boundary: a batch of N blocks yields
N results; the failing block's result has empty lists and
`error = {type, message}` of the exception; blocks that dispatch
successfully carry no `error`.  In the scripts variant this holds only
when every block has an `id` key — then no exception escapes the loop —
while a failing block without an `id` aborts the whole batch (see the
counterexample). -/
theorem c6_fault_isolation :
    (∀ (bs : List Block) (k : Nat) (hk : k < bs.length) (e : PyErr),
       analyze_block_body (bs.get ⟨k, hk⟩) = .error e →
       (analyze_blocks bs).length = bs.length ∧
       (∃ res : AnalysisResult, (analyze_blocks bs).get? k = some res ∧
          res.error = some e ∧ res.definedVariables = [] ∧
          res.usedVariables = [] ∧ res.importedModules = []) ∧
       (∀ (j : Nat) (hj : j < bs.length) (r : AnalysisResult),
          analyze_block_body (bs.get ⟨j, hj⟩) = .ok r →
          (analyze_blocks bs).get? j = some r ∧ r.error = none)) ∧
    (∀ bs : List Block, (∀ b ∈ bs, b.blockId ≠ none) →
       ∃ res : List AnalysisResult, Scripts.analyze_blocks bs = .ok res) := by
  constructor
  · intro bs k hk e hfail
    refine ⟨by simp [analyze_blocks], ?_, ?_⟩
    · refine ⟨analyze_block (bs.get ⟨k, hk⟩), ?_, ?_⟩
      · rw [analyze_blocks, List.get?_map, List.get?_eq_get hk]
        rfl
      · rw [analyze_block_of_err _ _ hfail]
        exact ⟨rfl, rfl, rfl, rfl⟩
    · intro j hj r hok
      constructor
      · rw [analyze_blocks, List.get?_map, List.get?_eq_get hj]
        show some (analyze_block (bs.get ⟨j, hj⟩)) = some r
        rw [analyze_block_of_ok _ _ hok]
      · exact analyze_block_body_ok_no_error _ _ hok
  · exact scripts_no_escape

/-- Witness for C6: a two-block batch whose second block lacks a
`blockId` key yields two results; the second carries the `KeyError`, the
first carries no error. -/
theorem c6_fault_isolation_witness :
    (analyze_blocks [{ blockId := some "g", type := some "code" },
        { blockId := none, type := some "code" }]).length =
      ([{ blockId := some "g", type := some "code" },
        { blockId := none, type := some "code" }] : List Block).length ∧
    (∃ res : AnalysisResult,
       (analyze_blocks [{ blockId := some "g", type := some "code" },
          { blockId := none, type := some "code" }]).get? 1 = some res ∧
       res.error = some { type := "KeyError", message := "\x27blockId\x27" } ∧
       res.definedVariables = [] ∧ res.usedVariables = [] ∧
       res.importedModules = []) ∧
    (∀ (j : Nat)
       (hj : j < ([{ blockId := some "g", type := some "code" },
          { blockId := none, type := some "code" }] : List Block).length)
       (r : AnalysisResult),
       analyze_block_body
           (([{ blockId := some "g", type := some "code" },
              { blockId := none, type := some "code" }] : List Block).get
             ⟨j, hj⟩) = .ok r →
       (analyze_blocks [{ blockId := some "g", type := some "code" },
          { blockId := none, type := some "code" }]).get? j = some r ∧
         r.error = none) :=
  c6_fault_isolation.1
    [{ blockId := some "g", type := some "code" },
     { blockId := none, type := some "code" }] 1 (by decide)
    { type := "KeyError", message := "\x27blockId\x27" } rfl

/-- C8: the template variable extractor returns the union of the
`\x7b\x7b`-expression names and the identifiers following
`FROM`/`JOIN`/`INTO`/`UPDATE` (scanned case-insensitively after removing
`\x7b\x7b \x7d\x7d` and possibly multi-line `\x7b% %\x7d` regions), minus
the fixed stoplist; for the text
`SELECT * FROM users WHERE id == \x7b\x7bsomeVariable\x7d\x7d`, the sql
block yields `usedVariables = ["someVariable", "users"]` and
`definedVariables = []` when no variable-name metadata is configured. -/
theorem c8_query_extraction :
    (∀ s x : String, x ∈ extract_jinja_variables s ↔
       x ∈ mustacheVars s ∨
         ((∃ kw ∈ table_kws, x ∈ tableMatches kw s) ∧
           lowerStr x ∉ sql_keywords)) ∧
    (analyze_block
      { blockId := some "q", type := some "sql",
        code_text :=
          "SELECT * FROM users WHERE id == \x7b\x7bsomeVariable\x7d\x7d" }).usedVariables =
      ["someVariable", "users"] ∧
    (analyze_block
      { blockId := some "q", type := some "sql",
        code_text :=
          "SELECT * FROM users WHERE id == \x7b\x7bsomeVariable\x7d\x7d" }).definedVariables =
      [] := by
  refine ⟨mem_extract_jinja_variables, ?_, ?_⟩
  · decide
  · decide

/-- Witness for C8: the membership characterization instantiated at a
concrete query and name. -/
theorem c8_query_extraction_witness :
    "users" ∈ extract_jinja_variables "SELECT * FROM users" :=
  (c8_query_extraction.1 "SELECT * FROM users" "users").mpr
    (Or.inr ⟨⟨"from", by decide, by decide⟩, by decide⟩)

/-- C10: the name sanitizer is applied only to input-style variable
names: for `sql` and `button` blocks a configured non-empty metadata
variable name goes into `definedVariables` verbatim, with no
sanitization, while an `input-*` block sanitizes the configured name. -/
theorem c10_verbatim_metadata_names :
    (∀ (bid nm : String) (cp : Except PyErr (List PStmt)) (ct : String)
       (md : Metadata), md.deepnote_variable_name = some nm → nm ≠ "" →
       (analyze_block
         { blockId := some bid, type := some "sql", code_py := cp,
           code_text := ct, metadata := md }).definedVariables = [nm]) ∧
    (∀ (bid nm : String) (cp : Except PyErr (List PStmt)) (ct : String)
       (md : Metadata), md.deepnote_variable_name = some nm → nm ≠ "" →
       (analyze_block
         { blockId := some bid, type := some "button", code_py := cp,
           code_text := ct, metadata := md }).definedVariables = [nm]) ∧
    (∀ (bid nm t : String) (cp : Except PyErr (List PStmt)) (ct : String)
       (md : Metadata), md.deepnote_variable_name = some nm → nm ≠ "" →
       leadsWith "input-".data t.data = true →
       (analyze_block
         { blockId := some bid, type := some t, code_py := cp,
           code_text := ct, metadata := md }).definedVariables =
         [sanitize_python_variable_name nm]) := by
  refine ⟨?_, ?_, ?_⟩
  · intro bid nm cp ct md hmd hne
    have hbody := analyze_block_body_sql
      { blockId := some bid, type := some "sql", code_py := cp,
        code_text := ct, metadata := md } bid rfl rfl
    rw [analyze_block_of_ok _ _ hbody]
    simp [truthyList, hmd, hne]
  · intro bid nm cp ct md hmd hne
    have hbody := analyze_block_body_button
      { blockId := some bid, type := some "button", code_py := cp,
        code_text := ct, metadata := md } bid rfl rfl
    rw [analyze_block_of_ok _ _ hbody]
    simp [truthyList, hmd, hne]
  · intro bid nm t cp ct md hmd hne hi
    have h0 : t ≠ "" := by
      intro he
      rw [he] at hi
      exact absurd hi (by decide)
    have ht : blockTypeOf
        { blockId := some bid, type := some t,
          code_py := cp, code_text := ct, metadata := md } = t := by
      simp [blockTypeOf, h0]
    have hc : t ≠ "code" := by
      intro he
      rw [he] at hi
      exact absurd hi (by decide)
    have hs : t ≠ "sql" := by
      intro he
      rw [he] at hi
      exact absurd hi (by decide)
    have hbt : t ≠ "button" := by
      intro he
      rw [he] at hi
      exact absurd hi (by decide)
    have hbn : t ≠ "big-number" := by
      intro he
      rw [he] at hi
      exact absurd hi (by decide)
    rw [analyze_block_of_ok _ _
      (analyze_block_body_input _ bid rfl (by rw [ht]; exact hc)
        (by rw [ht]; exact hs) (by rw [ht]; exact hbt) (by rw [ht]; exact hbn)
        (by rw [ht]; exact hi))]
    simp [hmd, hne]

/-- Witness for C10: a sql block configured with the non-identifier name
`2 cool variable!` defines exactly that string, unsanitized. -/
theorem c10_verbatim_metadata_names_witness :
    (analyze_block
      { blockId := some "s1", type := some "sql", code_py := .ok [],
        code_text := "",
        metadata := { deepnote_variable_name := some "2 cool variable!" } }).definedVariables =
      ["2 cool variable!"] :=
  c10_verbatim_metadata_names.1 "s1" "2 cool variable!" (.ok []) ""
    { deepnote_variable_name := some "2 cool variable!" } rfl (by decide)
